import Mathlib

/-!
Shallow embedding of the parameter-substitution pass of the `lance-graph`
query compiler (`src/crates/lance-graph/src/parameter_substitution.rs`),
together with proofs of the specified properties.

Conventions of the embedding:
* Rust `Result<T, GraphError>` becomes `Except GraphError T`; the `?` operator
  becomes an explicit match on the intermediate `Except` value.
* In-place mutation (`&mut`) becomes explicit value passing: each
  `substitute_in_*` function returns the rewritten tree.
* `serde_json::Value` is modelled by `JsonValue`; `serde_json::Number` is
  modelled by the pair of accessors the code consults (`as_i64`, `as_f64`).
  IEEE floating-point numerals are carried exactly as rationals, and the
  `f64 -> f32` cast is modelled as the exact injection `f64_to_f32` (the
  claims under verification concern shape, order and error behaviour, not
  IEEE rounding).
* `HashMap<String, _>` maps become association lists with first-match lookup;
  node/relationship property maps (unique keys) likewise become association
  lists, preserving an (arbitrary but fixed) iteration order.
-/

/-- Model of `serde_json::Number`, reduced to the two accessors the source
consults: `as_i64` (the number if it is representable as a signed 64-bit
integer) and `as_f64` (the number as a double, carried exactly as a rational).
No invariant between the two fields is assumed. -/
structure JNumber where
  as_i64 : Option Int
  as_f64 : Option Rat

/-- Model of `serde_json::Value`. -/
inductive JsonValue where
  | null : JsonValue
  | bool (b : Bool) : JsonValue
  | num (n : JNumber) : JsonValue
  | str (s : String) : JsonValue
  | arr (elems : List JsonValue) : JsonValue
  | obj (fields : List (String × JsonValue)) : JsonValue

/-- Model of `serde_json::Value::as_f64`: succeeds exactly on the number variant,
deferring to the number's own accessor. -/
def JsonValue.value_as_f64 : JsonValue → Option Rat
  | .num n => n.as_f64
  | _ => none

/-- Model of the `f64 as f32` cast used when building vector literals.
Numeric values are carried exactly as rationals, so the cast is the
identity injection; the claims verified here do not depend on rounding. -/
def f64_to_f32 (x : Rat) : Rat := x

/-- Model of `GraphError` as raised by this pass: every error is a
`PlanError` carrying a message (the `snafu::Location` metadata, which
records only file/line of the raise site, is omitted). -/
inductive GraphError where
  | planError (message : String) : GraphError

/-- The parameter map: `HashMap<String, serde_json::Value>`, modelled as an
association list with first-match lookup. -/
def Params : Type := List (String × JsonValue)

/-- Lookup (`HashMap::get`) on the parameter map. -/
def lookupParam (ps : Params) (name : String) : Option JsonValue :=
  List.lookup name ps

/-- Modelled from the spec: Property Value — "a closed set of variants:
null, boolean, integer, float, string, or a pending parameter reference
(identified by name)" (§3). The `crate::ast` definitions are outside the
provided source; variants follow the spec and the uses in the source. -/
inductive PropertyValue where
  | Null : PropertyValue
  | Boolean (b : Bool) : PropertyValue
  | Integer (i : Int) : PropertyValue
  | Float (f : Rat) : PropertyValue
  | String (s : String) : PropertyValue
  | Parameter (name : String) : PropertyValue

/-- Modelled from the spec: Value Expression — parameter reference, literal,
vector-of-floats literal, scalar/aggregate function application, arithmetic,
vector-distance/similarity, "and other leaf forms untouched by substitution
(e.g. identifiers)" (§3), the last modelled by `Variable` and
`PropertyAccess`. Field names follow the uses in the source
(`args`, `left`, `right`). -/
inductive ValueExpression where
  | Parameter (name : String) : ValueExpression
  | Literal (value : PropertyValue) : ValueExpression
  | VectorLiteral (elems : List Rat) : ValueExpression
  | Variable (name : String) : ValueExpression
  | PropertyAccess (variable_name : String) (property : String) : ValueExpression
  | ScalarFunction (name : String) (args : List ValueExpression) : ValueExpression
  | AggregateFunction (name : String) (args : List ValueExpression) : ValueExpression
  | Arithmetic (op : String) (left : ValueExpression) (right : ValueExpression) : ValueExpression
  | VectorDistance (metric : String) (left : ValueExpression) (right : ValueExpression) : ValueExpression
  | VectorSimilarity (metric : String) (left : ValueExpression) (right : ValueExpression) : ValueExpression

/-- Modelled from the spec: Boolean Expression — comparison, and/or, not,
existence test ("opaque to substitution ... it carries no value-expression
payload at this layer", §4.2, hence a bare property name here), membership
test, and the unary-operand predicate family (§3). -/
inductive BooleanExpression where
  | Comparison (op : String) (left : ValueExpression) (right : ValueExpression) : BooleanExpression
  | And (left : BooleanExpression) (right : BooleanExpression) : BooleanExpression
  | Or (left : BooleanExpression) (right : BooleanExpression) : BooleanExpression
  | Not (inner : BooleanExpression) : BooleanExpression
  | Exists (property : String) : BooleanExpression
  | In (expression : ValueExpression) (list : List ValueExpression) : BooleanExpression
  | Like (expression : ValueExpression) (pattern : String) : BooleanExpression
  | ILike (expression : ValueExpression) (pattern : String) : BooleanExpression
  | Contains (expression : ValueExpression) (value : String) : BooleanExpression
  | StartsWith (expression : ValueExpression) (value : String) : BooleanExpression
  | EndsWith (expression : ValueExpression) (value : String) : BooleanExpression
  | IsNull (expression : ValueExpression) : BooleanExpression
  | IsNotNull (expression : ValueExpression) : BooleanExpression

/-- Modelled from the spec: a node pattern, carrying "a mapping of
property-name to property-value, keys unique" (§3), kept as an ordered
association list. -/
structure NodePattern where
  variable_name : Option String
  labels : List String
  properties : List (String × PropertyValue)

/-- Modelled from the spec: a relationship pattern with its own property
mapping (§3). -/
structure RelationshipPattern where
  variable_name : Option String
  rel_types : List String
  properties : List (String × PropertyValue)

/-- Modelled from the spec: "each segment = a relationship plus an end
node" (§3). -/
structure PathSegment where
  relationship : RelationshipPattern
  end_node : NodePattern

/-- Modelled from the spec: "a start node plus an ordered sequence of
segments" (§3). -/
structure PathPattern where
  start_node : NodePattern
  segments : List PathSegment

/-- Modelled from the spec: Graph Pattern — "either a single node ... or a
path" (§3). -/
inductive GraphPattern where
  | Node (node : NodePattern) : GraphPattern
  | Path (path : PathPattern) : GraphPattern

/-- Modelled from the spec: the pattern-matching clause (`MatchClause` of the
missing `crate::ast`), holding the list of patterns the source iterates as
`match_clause.patterns`. -/
structure MatchClause where
  patterns : List GraphPattern

/-- Modelled from the spec: the UNWIND clause (`UnwindClause` of the missing
`crate::ast`), holding the unwound expression the source accesses as
`unwind_clause.expression`, plus its binding variable. -/
structure UnwindClause where
  expression : ValueExpression
  variable_name : String

/-- Modelled from the spec: a reading clause (`ReadingClause` of the missing
`crate::ast`) is MATCH or UNWIND, the two variants the source matches on. -/
inductive ReadingClause where
  | Match (match_clause : MatchClause) : ReadingClause
  | Unwind (unwind_clause : UnwindClause) : ReadingClause

/-- Modelled from the spec: the filter clause wraps one boolean
expression. -/
structure WhereClause where
  expression : BooleanExpression

/-- Modelled from the spec: one projection item (of the missing `crate::ast`)
with the value expression the source accesses as `item.expression`, and an
alias. -/
structure ProjectionItem where
  expression : ValueExpression
  alias_name : Option String

/-- Modelled from the spec: one ordering item (of the missing `crate::ast`)
with the value expression the source accesses as `item.expression`. -/
structure OrderByItem where
  expression : ValueExpression
  ascending : Bool

/-- Modelled from the spec: the ordering clause, an ordered list of
items. -/
structure OrderByClause where
  items : List OrderByItem

/-- Modelled from the spec: the intermediate projection clause, "itself
containing its own optional ordering" (§3). -/
structure WithClause where
  items : List ProjectionItem
  order_by : Option OrderByClause

/-- Modelled from the spec: the final projection clause. -/
structure ReturnClause where
  items : List ProjectionItem

/-- Modelled from the spec: the query root (`CypherQuery` of the missing
`crate::ast`), §3: pre-projection reading clauses, optional filter, optional intermediate
projection, post-projection reading clauses and optional filter, mandatory
final projection, optional final ordering. -/
structure CypherQuery where
  reading_clauses : List ReadingClause
  where_clause : Option WhereClause
  with_clause : Option WithClause
  post_with_reading_clauses : List ReadingClause
  post_with_where_clause : Option WhereClause
  return_clause : ReturnClause
  order_by : Option OrderByClause

/-- The message of the missing-parameter error
(`format!("Missing parameter: ${}", name)`). -/
def missingParamMsg (name : String) : String :=
  "Missing parameter: $" ++ name

/-- The message of the invalid-list-parameter error raised when an array
parameter contains a non-numeric element. -/
def nonNumericListMsg (name : String) : String :=
  "Parameter $" ++ name ++ " is a list but contains non-numeric values. Only float vectors are supported as list parameters currently."

/-- The message of the unsupported-complex-parameter error. -/
def complexTypeMsg : String :=
  "Complex types (List, Map) are not fully supported as parameters yet (except float vectors)."

/-- Embedding of `json_to_property_value` from the source: scalar coercion of a dynamic
value into a property-value literal. -/
def json_to_property_value : JsonValue → Except GraphError PropertyValue
  | .null => .ok .Null
  | .bool b => .ok (.Boolean b)
  | .num n =>
      match n.as_i64 with
      | some i => .ok (.Integer i)
      | none =>
          match n.as_f64 with
          | some f => .ok (.Float f)
          | none => .ok .Null
  | .str s => .ok (.String s)
  | .arr _ => .error (.planError complexTypeMsg)
  | .obj _ => .error (.planError complexTypeMsg)

/-- Embedding of `substitute_in_property_value` from the source: parameter references are
looked up and coerced by `json_to_property_value`; every other property value
is left untouched. -/
def substitute_in_property_value (ps : Params) :
    PropertyValue → Except GraphError PropertyValue
  | .Parameter name =>
      match lookupParam ps name with
      | none => .error (.planError (missingParamMsg name))
      | some param_value => json_to_property_value param_value
  | v => .ok v

/-- The element loop of the array branch of `substitute_in_value_expression`:
interpret every element as a number (`v.as_f64()`), casting to `f32`; fail at
the first non-numeric element. -/
def collect_floats (name : String) : List JsonValue → Except GraphError (List Rat)
  | [] => .ok []
  | v :: rest =>
      match v.value_as_f64 with
      | some f =>
          match collect_floats name rest with
          | .error e => .error e
          | .ok fs => .ok (f64_to_f32 f :: fs)
      | none => .error (.planError (nonNumericListMsg name))

mutual

/-- Embedding of `substitute_in_value_expression` from the source. -/
def substitute_in_value_expression (ps : Params) :
    ValueExpression → Except GraphError ValueExpression
  | .Parameter name =>
      match lookupParam ps name with
      | none => .error (.planError (missingParamMsg name))
      | some param_value =>
          match param_value with
          | .arr a =>
              match collect_floats name a with
              | .error e => .error e
              | .ok floats => .ok (.VectorLiteral floats)
          | _ =>
              match json_to_property_value param_value with
              | .error e => .error e
              | .ok prop_val => .ok (.Literal prop_val)
  | .ScalarFunction name args =>
      match substitute_args ps args with
      | .error e => .error e
      | .ok args2 => .ok (.ScalarFunction name args2)
  | .AggregateFunction name args =>
      match substitute_args ps args with
      | .error e => .error e
      | .ok args2 => .ok (.AggregateFunction name args2)
  | .Arithmetic op left right =>
      match substitute_in_value_expression ps left with
      | .error e => .error e
      | .ok left2 =>
          match substitute_in_value_expression ps right with
          | .error e => .error e
          | .ok right2 => .ok (.Arithmetic op left2 right2)
  | .VectorDistance metric left right =>
      match substitute_in_value_expression ps left with
      | .error e => .error e
      | .ok left2 =>
          match substitute_in_value_expression ps right with
          | .error e => .error e
          | .ok right2 => .ok (.VectorDistance metric left2 right2)
  | .VectorSimilarity metric left right =>
      match substitute_in_value_expression ps left with
      | .error e => .error e
      | .ok left2 =>
          match substitute_in_value_expression ps right with
          | .error e => .error e
          | .ok right2 => .ok (.VectorSimilarity metric left2 right2)
  | e => .ok e

/-- The argument loop shared by the function-application cases (and by the
membership-test candidate list): substitute each element in order, stopping
at the first error. -/
def substitute_args (ps : Params) :
    List ValueExpression → Except GraphError (List ValueExpression)
  | [] => .ok []
  | a :: rest =>
      match substitute_in_value_expression ps a with
      | .error e => .error e
      | .ok a2 =>
          match substitute_args ps rest with
          | .error e => .error e
          | .ok rest2 => .ok (a2 :: rest2)

end

/-- Embedding of `substitute_in_boolean_expression` from the source. -/
def substitute_in_boolean_expression (ps : Params) :
    BooleanExpression → Except GraphError BooleanExpression
  | .Comparison op left right =>
      match substitute_in_value_expression ps left with
      | .error e => .error e
      | .ok left2 =>
          match substitute_in_value_expression ps right with
          | .error e => .error e
          | .ok right2 => .ok (.Comparison op left2 right2)
  | .And left right =>
      match substitute_in_boolean_expression ps left with
      | .error e => .error e
      | .ok left2 =>
          match substitute_in_boolean_expression ps right with
          | .error e => .error e
          | .ok right2 => .ok (.And left2 right2)
  | .Or left right =>
      match substitute_in_boolean_expression ps left with
      | .error e => .error e
      | .ok left2 =>
          match substitute_in_boolean_expression ps right with
          | .error e => .error e
          | .ok right2 => .ok (.Or left2 right2)
  | .Not inner =>
      match substitute_in_boolean_expression ps inner with
      | .error e => .error e
      | .ok inner2 => .ok (.Not inner2)
  | .Exists p => .ok (.Exists p)
  | .In expression list =>
      match substitute_in_value_expression ps expression with
      | .error e => .error e
      | .ok expr2 =>
          match substitute_args ps list with
          | .error e => .error e
          | .ok list2 => .ok (.In expr2 list2)
  | .Like expression pat =>
      match substitute_in_value_expression ps expression with
      | .error e => .error e
      | .ok expr2 => .ok (.Like expr2 pat)
  | .ILike expression pat =>
      match substitute_in_value_expression ps expression with
      | .error e => .error e
      | .ok expr2 => .ok (.ILike expr2 pat)
  | .Contains expression v =>
      match substitute_in_value_expression ps expression with
      | .error e => .error e
      | .ok expr2 => .ok (.Contains expr2 v)
  | .StartsWith expression v =>
      match substitute_in_value_expression ps expression with
      | .error e => .error e
      | .ok expr2 => .ok (.StartsWith expr2 v)
  | .EndsWith expression v =>
      match substitute_in_value_expression ps expression with
      | .error e => .error e
      | .ok expr2 => .ok (.EndsWith expr2 v)
  | .IsNull expression =>
      match substitute_in_value_expression ps expression with
      | .error e => .error e
      | .ok expr2 => .ok (.IsNull expr2)
  | .IsNotNull expression =>
      match substitute_in_value_expression ps expression with
      | .error e => .error e
      | .ok expr2 => .ok (.IsNotNull expr2)

/-- Error-propagating map over a list: the embedding of the source's
`for x in list { f(x)?; }` loops (each iteration rewrites one element,
stopping at the first error). -/
def mapE {α β : Type} (f : α → Except GraphError β) :
    List α → Except GraphError (List β)
  | [] => .ok []
  | x :: rest =>
      match f x with
      | .error e => .error e
      | .ok y =>
          match mapE f rest with
          | .error e => .error e
          | .ok ys => .ok (y :: ys)

/-- Error-propagating action on an optional component: the embedding of the
source's `if let Some(c) = ... { substitute_in_*(c)?; }`. -/
def substOption {α : Type} (f : α → Except GraphError α) :
    Option α → Except GraphError (Option α)
  | none => .ok none
  | some x =>
      match f x with
      | .error e => .error e
      | .ok y => .ok (some y)

/-- The `values_mut()` loops of the source: substitute every property value
of a property map, keys and order untouched. -/
def substitute_in_properties (ps : Params)
    (props : List (String × PropertyValue)) :
    Except GraphError (List (String × PropertyValue)) :=
  mapE (fun kv =>
    match substitute_in_property_value ps kv.2 with
    | .error e => .error e
    | .ok v2 => .ok (kv.1, v2)) props

/-- Embedding of `substitute_in_node_pattern` from the source. -/
def substitute_in_node_pattern (ps : Params) (node : NodePattern) :
    Except GraphError NodePattern :=
  match substitute_in_properties ps node.properties with
  | .error e => .error e
  | .ok props2 => .ok { node with properties := props2 }

/-- Embedding of `substitute_in_relationship_pattern` from the source. -/
def substitute_in_relationship_pattern (ps : Params)
    (rel : RelationshipPattern) : Except GraphError RelationshipPattern :=
  match substitute_in_properties ps rel.properties with
  | .error e => .error e
  | .ok props2 => .ok { rel with properties := props2 }

/-- The body of the segment loop of `substitute_in_graph_pattern`: the
segment's relationship properties first, then its end-node properties. -/
def substitute_in_segment (ps : Params) (seg : PathSegment) :
    Except GraphError PathSegment :=
  match substitute_in_relationship_pattern ps seg.relationship with
  | .error e => .error e
  | .ok rel2 =>
      match substitute_in_node_pattern ps seg.end_node with
      | .error e => .error e
      | .ok end2 => .ok { relationship := rel2, end_node := end2 }

/-- Embedding of `substitute_in_graph_pattern` from the source: a single node's
properties, or a path's start node followed by each segment in order. -/
def substitute_in_graph_pattern (ps : Params) :
    GraphPattern → Except GraphError GraphPattern
  | .Node node =>
      match substitute_in_properties ps node.properties with
      | .error e => .error e
      | .ok props2 => .ok (.Node { node with properties := props2 })
  | .Path path =>
      match substitute_in_node_pattern ps path.start_node with
      | .error e => .error e
      | .ok start2 =>
          match mapE (substitute_in_segment ps) path.segments with
          | .error e => .error e
          | .ok segs2 => .ok (.Path { start_node := start2, segments := segs2 })

/-- Embedding of `substitute_in_reading_clause` from the source: MATCH descends into each
pattern, UNWIND descends into its expression. -/
def substitute_in_reading_clause (ps : Params) :
    ReadingClause → Except GraphError ReadingClause
  | .Match mc =>
      match mapE (substitute_in_graph_pattern ps) mc.patterns with
      | .error e => .error e
      | .ok pats2 => .ok (.Match { patterns := pats2 })
  | .Unwind uc =>
      match substitute_in_value_expression ps uc.expression with
      | .error e => .error e
      | .ok expr2 => .ok (.Unwind { uc with expression := expr2 })

/-- Embedding of `substitute_in_where_clause` from the source. -/
def substitute_in_where_clause (ps : Params) (w : WhereClause) :
    Except GraphError WhereClause :=
  match substitute_in_boolean_expression ps w.expression with
  | .error e => .error e
  | .ok expr2 => .ok { expression := expr2 }

/-- The item loop shared by the WITH and RETURN clauses
(`item.expression`). -/
def substitute_in_projection_item (ps : Params) (item : ProjectionItem) :
    Except GraphError ProjectionItem :=
  match substitute_in_value_expression ps item.expression with
  | .error e => .error e
  | .ok expr2 => .ok { item with expression := expr2 }

/-- The item body of the ORDER BY loop (`item.expression`). -/
def substitute_in_order_by_item (ps : Params) (item : OrderByItem) :
    Except GraphError OrderByItem :=
  match substitute_in_value_expression ps item.expression with
  | .error e => .error e
  | .ok expr2 => .ok { item with expression := expr2 }

/-- Embedding of `substitute_in_order_by_clause` from the source. -/
def substitute_in_order_by_clause (ps : Params) (ob : OrderByClause) :
    Except GraphError OrderByClause :=
  match mapE (substitute_in_order_by_item ps) ob.items with
  | .error e => .error e
  | .ok items2 => .ok { items := items2 }

/-- Embedding of `substitute_in_with_clause` from the source: the items, then the nested
ORDER BY if present. -/
def substitute_in_with_clause (ps : Params) (wc : WithClause) :
    Except GraphError WithClause :=
  match mapE (substitute_in_projection_item ps) wc.items with
  | .error e => .error e
  | .ok items2 =>
      match substOption (substitute_in_order_by_clause ps) wc.order_by with
      | .error e => .error e
      | .ok ob2 => .ok { items := items2, order_by := ob2 }

/-- Embedding of `substitute_in_return_clause` from the source. -/
def substitute_in_return_clause (ps : Params) (rc : ReturnClause) :
    Except GraphError ReturnClause :=
  match mapE (substitute_in_projection_item ps) rc.items with
  | .error e => .error e
  | .ok items2 => .ok { items := items2 }

/-- Embedding of `substitute_parameters` from the source: the clause walker, visiting the
clauses in the source's order — reading clauses, WHERE, WITH, post-WITH
reading clauses, post-WITH WHERE, RETURN, ORDER BY. -/
def substitute_parameters (query : CypherQuery) (parameters : Params) :
    Except GraphError CypherQuery :=
  match mapE (substitute_in_reading_clause parameters) query.reading_clauses with
  | .error e => .error e
  | .ok rcs =>
  match substOption (substitute_in_where_clause parameters) query.where_clause with
  | .error e => .error e
  | .ok wc =>
  match substOption (substitute_in_with_clause parameters) query.with_clause with
  | .error e => .error e
  | .ok withc =>
  match mapE (substitute_in_reading_clause parameters) query.post_with_reading_clauses with
  | .error e => .error e
  | .ok prcs =>
  match substOption (substitute_in_where_clause parameters) query.post_with_where_clause with
  | .error e => .error e
  | .ok pwc =>
  match substitute_in_return_clause parameters query.return_clause with
  | .error e => .error e
  | .ok retc =>
  match substOption (substitute_in_order_by_clause parameters) query.order_by with
  | .error e => .error e
  | .ok obc =>
    .ok { reading_clauses := rcs, where_clause := wc, with_clause := withc,
          post_with_reading_clauses := prcs, post_with_where_clause := pwc,
          return_clause := retc, order_by := obc }

/-- A parameter-reference occurrence, tagged with the kind of syntactic
position it sits in: a bare property-value position or a value-expression
position. -/
inductive Occ where
  | prop (name : String) : Occ
  | expr (name : String) : Occ
deriving DecidableEq, Repr

/-- The parameter name an occurrence refers to. -/
def Occ.occName : Occ → String
  | .prop name => name
  | .expr name => name

/-- The parameter-reference occurrences of a property value. -/
def propertyValueOccs : PropertyValue → List Occ
  | .Parameter name => [.prop name]
  | _ => []

mutual

/-- The parameter-reference occurrences of a value expression, in traversal
order: function arguments left to right, binary operands left then right. -/
def valueExpressionOccs : ValueExpression → List Occ
  | .Parameter name => [.expr name]
  | .ScalarFunction _ args => argsOccs args
  | .AggregateFunction _ args => argsOccs args
  | .Arithmetic _ left right =>
      valueExpressionOccs left ++ valueExpressionOccs right
  | .VectorDistance _ left right =>
      valueExpressionOccs left ++ valueExpressionOccs right
  | .VectorSimilarity _ left right =>
      valueExpressionOccs left ++ valueExpressionOccs right
  | _ => []

/-- The occurrences of an argument list, in list order. -/
def argsOccs : List ValueExpression → List Occ
  | [] => []
  | a :: rest => valueExpressionOccs a ++ argsOccs rest

end

/-- The occurrences of a boolean expression, in traversal order. -/
def booleanExpressionOccs : BooleanExpression → List Occ
  | .Comparison _ left right =>
      valueExpressionOccs left ++ valueExpressionOccs right
  | .And left right => booleanExpressionOccs left ++ booleanExpressionOccs right
  | .Or left right => booleanExpressionOccs left ++ booleanExpressionOccs right
  | .Not inner => booleanExpressionOccs inner
  | .Exists _ => []
  | .In expression list => valueExpressionOccs expression ++ argsOccs list
  | .Like expression _ => valueExpressionOccs expression
  | .ILike expression _ => valueExpressionOccs expression
  | .Contains expression _ => valueExpressionOccs expression
  | .StartsWith expression _ => valueExpressionOccs expression
  | .EndsWith expression _ => valueExpressionOccs expression
  | .IsNull expression => valueExpressionOccs expression
  | .IsNotNull expression => valueExpressionOccs expression

/-- The occurrences of a property map, in entry order. -/
def propertiesOccs (props : List (String × PropertyValue)) : List Occ :=
  (props.map fun kv => propertyValueOccs kv.2).flatten

/-- The occurrences of a node pattern (its properties). -/
def nodeOccs (node : NodePattern) : List Occ :=
  propertiesOccs node.properties

/-- The occurrences of a relationship pattern (its properties). -/
def relOccs (rel : RelationshipPattern) : List Occ :=
  propertiesOccs rel.properties

/-- The occurrences of a path segment: the relationship's properties first,
then the end node's properties. -/
def segmentOccs (seg : PathSegment) : List Occ :=
  relOccs seg.relationship ++ nodeOccs seg.end_node

/-- The occurrences of a graph pattern: for a path, the start node's
properties first, then each segment in order. -/
def patternOccs : GraphPattern → List Occ
  | .Node node => nodeOccs node
  | .Path path => nodeOccs path.start_node ++ (path.segments.map segmentOccs).flatten

/-- The occurrences of a reading clause. -/
def readingClauseOccs : ReadingClause → List Occ
  | .Match mc => (mc.patterns.map patternOccs).flatten
  | .Unwind uc => valueExpressionOccs uc.expression

/-- The occurrences of a filter clause. -/
def whereOccs (w : WhereClause) : List Occ :=
  booleanExpressionOccs w.expression

/-- The occurrences of a projection item. -/
def projectionItemOccs (item : ProjectionItem) : List Occ :=
  valueExpressionOccs item.expression

/-- The occurrences of an ordering item. -/
def orderByItemOccs (item : OrderByItem) : List Occ :=
  valueExpressionOccs item.expression

/-- The occurrences of an ordering clause, in item order. -/
def orderByOccs (ob : OrderByClause) : List Occ :=
  (ob.items.map orderByItemOccs).flatten

/-- The occurrences of the intermediate projection clause: its items in
order, then its nested ordering. -/
def withOccs (wc : WithClause) : List Occ :=
  (wc.items.map projectionItemOccs).flatten ++
    (match wc.order_by with
     | none => []
     | some ob => orderByOccs ob)

/-- The occurrences of the final projection clause, in item order. -/
def returnOccs (rc : ReturnClause) : List Occ :=
  (rc.items.map projectionItemOccs).flatten

/-- The occurrences of an optional component. -/
def optOccs {α : Type} (occF : α → List Occ) : Option α → List Occ
  | none => []
  | some x => occF x

/-- All parameter-reference occurrences of a query, in the specified
traversal order: (1) each pre-projection reading clause in sequence, (2) the
pre-projection filter clause, (3) the intermediate projection clause with its
nested ordering, (4) each post-projection reading clause in sequence, (5) the
post-projection filter clause, (6) the final projection clause, (7) the final
ordering clause. -/
def queryOccs (query : CypherQuery) : List Occ :=
  (query.reading_clauses.map readingClauseOccs).flatten ++
  optOccs whereOccs query.where_clause ++
  optOccs withOccs query.with_clause ++
  (query.post_with_reading_clauses.map readingClauseOccs).flatten ++
  optOccs whereOccs query.post_with_where_clause ++
  returnOccs query.return_clause ++
  optOccs orderByOccs query.order_by

/-- Resolution of a single occurrence, exactly as the source resolves a
parameter reference found at that kind of position: look the name up, then
coerce (scalar coercion in property positions; array-to-vector handling
first in value-expression positions). -/
def resolveOcc (ps : Params) : Occ → Except GraphError Unit
  | .prop name =>
      match lookupParam ps name with
      | none => .error (.planError (missingParamMsg name))
      | some v =>
          match json_to_property_value v with
          | .error e => .error e
          | .ok _ => .ok ()
  | .expr name =>
      match lookupParam ps name with
      | none => .error (.planError (missingParamMsg name))
      | some v =>
          match v with
          | .arr a =>
              match collect_floats name a with
              | .error e => .error e
              | .ok _ => .ok ()
          | _ =>
              match json_to_property_value v with
              | .error e => .error e
              | .ok _ => .ok ()

/-- Resolve a list of occurrences in order, stopping at the first error. -/
def runOccs (ps : Params) : List Occ → Except GraphError Unit
  | [] => .ok ()
  | o :: rest =>
      match resolveOcc ps o with
      | .error e => .error e
      | .ok _ => runOccs ps rest

/-- The error of the first occurrence (in list order) that fails to
resolve, if any. -/
def firstFailure (ps : Params) : List Occ → Option GraphError
  | [] => none
  | o :: rest =>
      match resolveOcc ps o with
      | .error e => some e
      | .ok _ => firstFailure ps rest

/-- Forget the value of a substitution result, keeping only success or the
error. -/
def toUnit {α : Type} : Except GraphError α → Except GraphError Unit
  | .error e => .error e
  | .ok _ => .ok ()

/-- A dynamic value of scalar shape (neither array nor object). -/
def JsonValue.isScalar : JsonValue → Bool
  | .arr _ => false
  | .obj _ => false
  | _ => true

/-- Every element of the list is interpretable as a number. -/
def allNumeric (l : List JsonValue) : Bool :=
  l.all fun v => v.value_as_f64.isSome

/-- The occurrence's name is bound to a scalar-compatible value: a scalar in
property positions; a scalar or an all-numeric array in value-expression
positions. -/
def occResolvable (ps : Params) : Occ → Bool
  | .prop name =>
      match lookupParam ps name with
      | some v => v.isScalar
      | none => false
  | .expr name =>
      match lookupParam ps name with
      | some (.arr a) => allNumeric a
      | some v => v.isScalar
      | none => false

/-- The names of every `PropertyValue.Parameter` constructor, including ones
the pass never visits (such as the payload of a pre-existing
`ValueExpression.Literal`). -/
def propertyValueDeepParams : PropertyValue → List String
  | .Parameter name => [name]
  | _ => []

mutual

/-- The names of every parameter constructor occurring anywhere inside a
value expression, including inside a `Literal` payload. -/
def valueExpressionDeepParams : ValueExpression → List String
  | .Parameter name => [name]
  | .Literal v => propertyValueDeepParams v
  | .ScalarFunction _ args => argsDeepParams args
  | .AggregateFunction _ args => argsDeepParams args
  | .Arithmetic _ left right =>
      valueExpressionDeepParams left ++ valueExpressionDeepParams right
  | .VectorDistance _ left right =>
      valueExpressionDeepParams left ++ valueExpressionDeepParams right
  | .VectorSimilarity _ left right =>
      valueExpressionDeepParams left ++ valueExpressionDeepParams right
  | _ => []

/-- Deep parameter names of an argument list. -/
def argsDeepParams : List ValueExpression → List String
  | [] => []
  | a :: rest => valueExpressionDeepParams a ++ argsDeepParams rest

end

/-- Deep parameter names of a boolean expression. -/
def booleanExpressionDeepParams : BooleanExpression → List String
  | .Comparison _ left right =>
      valueExpressionDeepParams left ++ valueExpressionDeepParams right
  | .And left right =>
      booleanExpressionDeepParams left ++ booleanExpressionDeepParams right
  | .Or left right =>
      booleanExpressionDeepParams left ++ booleanExpressionDeepParams right
  | .Not inner => booleanExpressionDeepParams inner
  | .Exists _ => []
  | .In expression list =>
      valueExpressionDeepParams expression ++ argsDeepParams list
  | .Like expression _ => valueExpressionDeepParams expression
  | .ILike expression _ => valueExpressionDeepParams expression
  | .Contains expression _ => valueExpressionDeepParams expression
  | .StartsWith expression _ => valueExpressionDeepParams expression
  | .EndsWith expression _ => valueExpressionDeepParams expression
  | .IsNull expression => valueExpressionDeepParams expression
  | .IsNotNull expression => valueExpressionDeepParams expression

/-- Deep parameter names of a property map. -/
def propertiesDeepParams (props : List (String × PropertyValue)) : List String :=
  (props.map fun kv => propertyValueDeepParams kv.2).flatten

/-- Deep parameter names of a graph pattern. -/
def patternDeepParams : GraphPattern → List String
  | .Node node => propertiesDeepParams node.properties
  | .Path path =>
      propertiesDeepParams path.start_node.properties ++
        (path.segments.map fun seg =>
          propertiesDeepParams seg.relationship.properties ++
            propertiesDeepParams seg.end_node.properties).flatten

/-- Deep parameter names of a reading clause. -/
def readingClauseDeepParams : ReadingClause → List String
  | .Match mc => (mc.patterns.map patternDeepParams).flatten
  | .Unwind uc => valueExpressionDeepParams uc.expression

/-- Deep parameter names of an optional component. -/
def optDeepParams {α : Type} (f : α → List String) : Option α → List String
  | none => []
  | some x => f x

/-- The names of every parameter constructor occurring anywhere in a query,
including positions the substitution pass never visits. -/
def queryDeepParams (query : CypherQuery) : List String :=
  (query.reading_clauses.map readingClauseDeepParams).flatten ++
  optDeepParams (fun w => booleanExpressionDeepParams w.expression) query.where_clause ++
  optDeepParams (fun wc =>
    (wc.items.map fun item => valueExpressionDeepParams item.expression).flatten ++
    optDeepParams (fun ob =>
      (ob.items.map fun item => valueExpressionDeepParams item.expression).flatten)
      wc.order_by) query.with_clause ++
  (query.post_with_reading_clauses.map readingClauseDeepParams).flatten ++
  optDeepParams (fun w => booleanExpressionDeepParams w.expression)
    query.post_with_where_clause ++
  (query.return_clause.items.map fun item =>
    valueExpressionDeepParams item.expression).flatten ++
  optDeepParams (fun ob =>
    (ob.items.map fun item => valueExpressionDeepParams item.expression).flatten)
    query.order_by

/-- A query whose only parameter constructor sits inside the payload of a
`Literal` return expression. -/
def literalWrappedQuery : CypherQuery :=
  { reading_clauses := [],
    where_clause := none,
    with_clause := none,
    post_with_reading_clauses := [],
    post_with_where_clause := none,
    return_clause := { items := [{ expression := .Literal (.Parameter "x"), alias_name := none }] },
    order_by := none }

/-- A sample parameter map binding five scalar-compatible values. -/
def sampleParams : Params :=
  [("pname", .str "Alice"),
   ("age", .num ⟨some 30, some 30⟩),
   ("vec", .arr [.num ⟨some 1, some 1⟩, .num ⟨none, some (5/2)⟩, .num ⟨some 3, some 3⟩]),
   ("flag", .bool true),
   ("nothing", .null)]

/-- A sample query referencing parameters in node properties, relationship
properties, an UNWIND expression, the filter, the WITH clause and its nested
ordering, and a function-call argument in the RETURN clause. -/
def sampleQuery : CypherQuery :=
  { reading_clauses := [
      .Match { patterns := [
        .Node { variable_name := some "n", labels := ["Person"],
                properties := [("name", .Parameter "pname")] },
        .Path { start_node := { variable_name := some "a", labels := [], properties := [] },
                segments := [
                  { relationship := { variable_name := none, rel_types := ["KNOWS"],
                                      properties := [("since", .Parameter "age")] },
                    end_node := { variable_name := some "b", labels := [],
                                  properties := [("name", .Parameter "pname")] } }] }] },
      .Unwind { expression := .Parameter "vec", variable_name := "row" }],
    where_clause := some { expression := .And (.Comparison "=" (.PropertyAccess "n" "age") (.Parameter "age")) (.IsNotNull (.Parameter "flag")) },
    with_clause := some { items := [{ expression := .Parameter "nothing", alias_name := some "z" }],
                          order_by := some { items := [{ expression := .Parameter "age", ascending := true }] } },
    post_with_reading_clauses := [],
    post_with_where_clause := none,
    return_clause := { items := [
      { expression := .ScalarFunction "distance" [.Parameter "vec", .Variable "row"],
        alias_name := none }] },
    order_by := some { items := [{ expression := .Variable "z", ascending := false }] } }

/-- A query whose RETURN clause references the unbound parameter `y`. -/
def missingParamQuery : CypherQuery :=
  { reading_clauses := [],
    where_clause := none,
    with_clause := none,
    post_with_reading_clauses := [],
    post_with_where_clause := none,
    return_clause := { items := [{ expression := .Parameter "y", alias_name := none }] },
    order_by := none }

/-- A query with clauses of every kind and no parameter reference. -/
def paramFreeQuery : CypherQuery :=
  { reading_clauses := [
      .Match { patterns := [
        .Node { variable_name := some "n", labels := ["Person"],
                properties := [("name", .String "Bob")] }] }],
    where_clause := some { expression := .IsNotNull (.PropertyAccess "n" "age") },
    with_clause := some { items := [{ expression := .Variable "n", alias_name := none }],
                          order_by := none },
    post_with_reading_clauses := [],
    post_with_where_clause := none,
    return_clause := { items := [{ expression := .ScalarFunction "count" [.Variable "n"],
                                   alias_name := some "c" }] },
    order_by := some { items := [{ expression := .Variable "c", ascending := true }] } }

/-- Sequencing of two unit results: the second runs only if the first succeeded. -/
def seqUnit (a b : Except GraphError Unit) : Except GraphError Unit :=
  match a with
  | .error e => .error e
  | .ok _ => b

/-- The numeric interpretations of a list's elements, in order, cast to
single precision: the value computed by the array branch when every element
is numeric. -/
def floatsOf (l : List JsonValue) : List Rat :=
  l.filterMap fun v => (v.value_as_f64).map f64_to_f32

/-- A parameter map binding `x` to the integer 42. -/
def xTo42 : Params := [("x", .num ⟨some 42, some 42⟩)]

theorem runOccs_append (ps : Params) (a b : List Occ) :
    runOccs ps (a ++ b) = seqUnit (runOccs ps a) (runOccs ps b) := by
  induction a with
  | nil => rfl
  | cons o rest ih =>
      simp only [List.cons_append, runOccs]
      cases h : resolveOcc ps o with
      | error e => simp [seqUnit]
      | ok u => simpa [seqUnit] using ih

theorem runOccs_singleton (ps : Params) (o : Occ) :
    runOccs ps [o] = resolveOcc ps o := by
  simp only [runOccs]
  cases h : resolveOcc ps o with
  | error e => rfl
  | ok u => cases u; rfl

theorem mapE_unit {α β : Type} (ps : Params) (f : α → Except GraphError β)
    (occF : α → List Occ) (l : List α)
    (h : ∀ x ∈ l, toUnit (f x) = runOccs ps (occF x)) :
    toUnit (mapE f l) = runOccs ps ((l.map occF).flatten) := by
  induction l with
  | nil => rfl
  | cons x rest ih =>
      have hx := h x (by simp)
      have hrest := ih (fun y hy => h y (by simp [hy]))
      simp only [List.map_cons, List.flatten_cons, runOccs_append]
      rw [← hx, ← hrest]
      simp only [mapE]
      cases f x with
      | error e => rfl
      | ok y =>
          cases mapE f rest with
          | error e => rfl
          | ok ys => rfl

theorem substOption_unit {α : Type} (ps : Params) (f : α → Except GraphError α)
    (occF : α → List Occ) (o : Option α)
    (h : ∀ x, o = some x → toUnit (f x) = runOccs ps (occF x)) :
    toUnit (substOption f o) = runOccs ps (optOccs occF o) := by
  cases o with
  | none => rfl
  | some x =>
      have hx := h x rfl
      simp only [substOption, optOccs]
      rw [← hx]
      cases f x <;> rfl

theorem subst_pv_param_unit (ps : Params) (name : String) :
    toUnit (substitute_in_property_value ps (.Parameter name)) =
      resolveOcc ps (.prop name) := by
  simp only [substitute_in_property_value, resolveOcc]
  cases h : lookupParam ps name with
  | none => rfl
  | some pv =>
      dsimp only
      cases json_to_property_value pv <;> rfl

theorem subst_vexpr_param_unit (ps : Params) (name : String) :
    toUnit (substitute_in_value_expression ps (.Parameter name)) =
      resolveOcc ps (.expr name) := by
  cases h : lookupParam ps name with
  | none => simp [substitute_in_value_expression, resolveOcc, h, toUnit]
  | some pv =>
      cases pv with
      | arr a =>
          cases hc : collect_floats name a with
          | error e =>
              simp [substitute_in_value_expression, resolveOcc, h, hc, toUnit]
          | ok fs =>
              simp [substitute_in_value_expression, resolveOcc, h, hc, toUnit]
      | null =>
          cases hj : json_to_property_value .null <;>
            simp [substitute_in_value_expression, resolveOcc, h, hj, toUnit]
      | bool b =>
          cases hj : json_to_property_value (.bool b) <;>
            simp [substitute_in_value_expression, resolveOcc, h, hj, toUnit]
      | num n =>
          cases hj : json_to_property_value (.num n) <;>
            simp [substitute_in_value_expression, resolveOcc, h, hj, toUnit]
      | str s =>
          cases hj : json_to_property_value (.str s) <;>
            simp [substitute_in_value_expression, resolveOcc, h, hj, toUnit]
      | obj fields =>
          cases hj : json_to_property_value (.obj fields) <;>
            simp [substitute_in_value_expression, resolveOcc, h, hj, toUnit]

mutual

theorem subst_vexpr_unit (ps : Params) (e : ValueExpression) :
    toUnit (substitute_in_value_expression ps e) =
      runOccs ps (valueExpressionOccs e) := by
  cases e with
  | Parameter name =>
      rw [valueExpressionOccs, runOccs_singleton]
      exact subst_vexpr_param_unit ps name
  | ScalarFunction name args =>
      have h := subst_args_unit ps args
      rw [valueExpressionOccs, ← h]
      cases hs : substitute_args ps args <;>
        simp [substitute_in_value_expression, hs, toUnit]
  | AggregateFunction name args =>
      have h := subst_args_unit ps args
      rw [valueExpressionOccs, ← h]
      cases hs : substitute_args ps args <;>
        simp [substitute_in_value_expression, hs, toUnit]
  | Arithmetic op left right =>
      have hl := subst_vexpr_unit ps left
      have hr := subst_vexpr_unit ps right
      rw [valueExpressionOccs, runOccs_append, ← hl, ← hr]
      cases h1 : substitute_in_value_expression ps left with
      | error e => simp [substitute_in_value_expression, h1, toUnit, seqUnit]
      | ok l2 =>
          cases h2 : substitute_in_value_expression ps right <;>
            simp [substitute_in_value_expression, h1, h2, toUnit, seqUnit]
  | VectorDistance metric left right =>
      have hl := subst_vexpr_unit ps left
      have hr := subst_vexpr_unit ps right
      rw [valueExpressionOccs, runOccs_append, ← hl, ← hr]
      cases h1 : substitute_in_value_expression ps left with
      | error e => simp [substitute_in_value_expression, h1, toUnit, seqUnit]
      | ok l2 =>
          cases h2 : substitute_in_value_expression ps right <;>
            simp [substitute_in_value_expression, h1, h2, toUnit, seqUnit]
  | VectorSimilarity metric left right =>
      have hl := subst_vexpr_unit ps left
      have hr := subst_vexpr_unit ps right
      rw [valueExpressionOccs, runOccs_append, ← hl, ← hr]
      cases h1 : substitute_in_value_expression ps left with
      | error e => simp [substitute_in_value_expression, h1, toUnit, seqUnit]
      | ok l2 =>
          cases h2 : substitute_in_value_expression ps right <;>
            simp [substitute_in_value_expression, h1, h2, toUnit, seqUnit]
  | Literal v => rfl
  | VectorLiteral elems => rfl
  | Variable name => rfl
  | PropertyAccess v p => rfl

theorem subst_args_unit (ps : Params) (l : List ValueExpression) :
    toUnit (substitute_args ps l) = runOccs ps (argsOccs l) := by
  cases l with
  | nil => rfl
  | cons a rest =>
      have ha := subst_vexpr_unit ps a
      have hrest := subst_args_unit ps rest
      rw [argsOccs, runOccs_append, ← ha, ← hrest]
      cases h1 : substitute_in_value_expression ps a with
      | error e => simp [substitute_args, h1, toUnit, seqUnit]
      | ok a2 =>
          cases h2 : substitute_args ps rest <;>
            simp [substitute_args, h1, h2, toUnit, seqUnit]

end

theorem subst_pv_unit (ps : Params) (v : PropertyValue) :
    toUnit (substitute_in_property_value ps v) = runOccs ps (propertyValueOccs v) := by
  cases v with
  | Parameter name =>
      rw [propertyValueOccs, runOccs_singleton]
      exact subst_pv_param_unit ps name
  | Null => rfl
  | Boolean b => rfl
  | Integer i => rfl
  | Float f => rfl
  | String s => rfl

theorem subst_bexpr_unit (ps : Params) (b : BooleanExpression) :
    toUnit (substitute_in_boolean_expression ps b) =
      runOccs ps (booleanExpressionOccs b) := by
  induction b with
  | Comparison op left right =>
      rw [booleanExpressionOccs, runOccs_append,
        ← subst_vexpr_unit ps left, ← subst_vexpr_unit ps right]
      cases h1 : substitute_in_value_expression ps left with
      | error e => simp [substitute_in_boolean_expression, h1, toUnit, seqUnit]
      | ok l2 =>
          cases h2 : substitute_in_value_expression ps right <;>
            simp [substitute_in_boolean_expression, h1, h2, toUnit, seqUnit]
  | And left right ihl ihr =>
      rw [booleanExpressionOccs, runOccs_append, ← ihl, ← ihr]
      cases h1 : substitute_in_boolean_expression ps left with
      | error e => simp [substitute_in_boolean_expression, h1, toUnit, seqUnit]
      | ok l2 =>
          cases h2 : substitute_in_boolean_expression ps right <;>
            simp [substitute_in_boolean_expression, h1, h2, toUnit, seqUnit]
  | Or left right ihl ihr =>
      rw [booleanExpressionOccs, runOccs_append, ← ihl, ← ihr]
      cases h1 : substitute_in_boolean_expression ps left with
      | error e => simp [substitute_in_boolean_expression, h1, toUnit, seqUnit]
      | ok l2 =>
          cases h2 : substitute_in_boolean_expression ps right <;>
            simp [substitute_in_boolean_expression, h1, h2, toUnit, seqUnit]
  | Not inner ih =>
      rw [booleanExpressionOccs, ← ih]
      cases h1 : substitute_in_boolean_expression ps inner <;>
        simp [substitute_in_boolean_expression, h1, toUnit]
  | Exists p => rfl
  | In expression list =>
      rw [booleanExpressionOccs, runOccs_append,
        ← subst_vexpr_unit ps expression, ← subst_args_unit ps list]
      cases h1 : substitute_in_value_expression ps expression with
      | error e => simp [substitute_in_boolean_expression, h1, toUnit, seqUnit]
      | ok e2 =>
          cases h2 : substitute_args ps list <;>
            simp [substitute_in_boolean_expression, h1, h2, toUnit, seqUnit]
  | Like expression pat =>
      rw [booleanExpressionOccs, ← subst_vexpr_unit ps expression]
      cases h1 : substitute_in_value_expression ps expression <;>
        simp [substitute_in_boolean_expression, h1, toUnit]
  | ILike expression pat =>
      rw [booleanExpressionOccs, ← subst_vexpr_unit ps expression]
      cases h1 : substitute_in_value_expression ps expression <;>
        simp [substitute_in_boolean_expression, h1, toUnit]
  | Contains expression v =>
      rw [booleanExpressionOccs, ← subst_vexpr_unit ps expression]
      cases h1 : substitute_in_value_expression ps expression <;>
        simp [substitute_in_boolean_expression, h1, toUnit]
  | StartsWith expression v =>
      rw [booleanExpressionOccs, ← subst_vexpr_unit ps expression]
      cases h1 : substitute_in_value_expression ps expression <;>
        simp [substitute_in_boolean_expression, h1, toUnit]
  | EndsWith expression v =>
      rw [booleanExpressionOccs, ← subst_vexpr_unit ps expression]
      cases h1 : substitute_in_value_expression ps expression <;>
        simp [substitute_in_boolean_expression, h1, toUnit]
  | IsNull expression =>
      rw [booleanExpressionOccs, ← subst_vexpr_unit ps expression]
      cases h1 : substitute_in_value_expression ps expression <;>
        simp [substitute_in_boolean_expression, h1, toUnit]
  | IsNotNull expression =>
      rw [booleanExpressionOccs, ← subst_vexpr_unit ps expression]
      cases h1 : substitute_in_value_expression ps expression <;>
        simp [substitute_in_boolean_expression, h1, toUnit]

theorem subst_props_unit (ps : Params) (props : List (String × PropertyValue)) :
    toUnit (substitute_in_properties ps props) = runOccs ps (propertiesOccs props) := by
  unfold substitute_in_properties propertiesOccs
  apply mapE_unit
  intro kv _
  rw [← subst_pv_unit ps kv.2]
  cases h : substitute_in_property_value ps kv.2 <;> simp [h, toUnit]

theorem subst_node_unit (ps : Params) (node : NodePattern) :
    toUnit (substitute_in_node_pattern ps node) = runOccs ps (nodeOccs node) := by
  rw [nodeOccs, ← subst_props_unit ps node.properties]
  unfold substitute_in_node_pattern
  cases h : substitute_in_properties ps node.properties <;> simp [h, toUnit]

theorem subst_rel_unit (ps : Params) (rel : RelationshipPattern) :
    toUnit (substitute_in_relationship_pattern ps rel) = runOccs ps (relOccs rel) := by
  rw [relOccs, ← subst_props_unit ps rel.properties]
  unfold substitute_in_relationship_pattern
  cases h : substitute_in_properties ps rel.properties <;> simp [h, toUnit]

theorem subst_segment_unit (ps : Params) (seg : PathSegment) :
    toUnit (substitute_in_segment ps seg) = runOccs ps (segmentOccs seg) := by
  rw [segmentOccs, runOccs_append, ← subst_rel_unit ps seg.relationship,
    ← subst_node_unit ps seg.end_node]
  unfold substitute_in_segment
  cases h1 : substitute_in_relationship_pattern ps seg.relationship with
  | error e => simp [h1, toUnit, seqUnit]
  | ok rel2 =>
      cases h2 : substitute_in_node_pattern ps seg.end_node <;>
        simp [h1, h2, toUnit, seqUnit]

theorem subst_pattern_unit (ps : Params) (p : GraphPattern) :
    toUnit (substitute_in_graph_pattern ps p) = runOccs ps (patternOccs p) := by
  cases p with
  | Node node =>
      rw [patternOccs, nodeOccs, ← subst_props_unit ps node.properties]
      cases h : substitute_in_properties ps node.properties <;>
        simp [substitute_in_graph_pattern, h, toUnit]
  | Path path =>
      rw [patternOccs, runOccs_append, ← subst_node_unit ps path.start_node,
        ← mapE_unit ps (substitute_in_segment ps) segmentOccs path.segments
          (fun seg _ => subst_segment_unit ps seg)]
      cases h1 : substitute_in_node_pattern ps path.start_node with
      | error e => simp [substitute_in_graph_pattern, h1, toUnit, seqUnit]
      | ok start2 =>
          cases h2 : mapE (substitute_in_segment ps) path.segments <;>
            simp [substitute_in_graph_pattern, h1, h2, toUnit, seqUnit]

theorem subst_reading_unit (ps : Params) (c : ReadingClause) :
    toUnit (substitute_in_reading_clause ps c) = runOccs ps (readingClauseOccs c) := by
  cases c with
  | Match mc =>
      rw [readingClauseOccs,
        ← mapE_unit ps (substitute_in_graph_pattern ps) patternOccs mc.patterns
          (fun p _ => subst_pattern_unit ps p)]
      cases h : mapE (substitute_in_graph_pattern ps) mc.patterns <;>
        simp [substitute_in_reading_clause, h, toUnit]
  | Unwind uc =>
      rw [readingClauseOccs, ← subst_vexpr_unit ps uc.expression]
      cases h : substitute_in_value_expression ps uc.expression <;>
        simp [substitute_in_reading_clause, h, toUnit]

theorem subst_where_unit (ps : Params) (w : WhereClause) :
    toUnit (substitute_in_where_clause ps w) = runOccs ps (whereOccs w) := by
  rw [whereOccs, ← subst_bexpr_unit ps w.expression]
  unfold substitute_in_where_clause
  cases h : substitute_in_boolean_expression ps w.expression <;> simp [h, toUnit]

theorem subst_projitem_unit (ps : Params) (item : ProjectionItem) :
    toUnit (substitute_in_projection_item ps item) = runOccs ps (projectionItemOccs item) := by
  rw [projectionItemOccs, ← subst_vexpr_unit ps item.expression]
  unfold substitute_in_projection_item
  cases h : substitute_in_value_expression ps item.expression <;> simp [h, toUnit]

theorem subst_obitem_unit (ps : Params) (item : OrderByItem) :
    toUnit (substitute_in_order_by_item ps item) = runOccs ps (orderByItemOccs item) := by
  rw [orderByItemOccs, ← subst_vexpr_unit ps item.expression]
  unfold substitute_in_order_by_item
  cases h : substitute_in_value_expression ps item.expression <;> simp [h, toUnit]

theorem subst_ob_unit (ps : Params) (ob : OrderByClause) :
    toUnit (substitute_in_order_by_clause ps ob) = runOccs ps (orderByOccs ob) := by
  rw [orderByOccs,
    ← mapE_unit ps (substitute_in_order_by_item ps) orderByItemOccs ob.items
      (fun item _ => subst_obitem_unit ps item)]
  unfold substitute_in_order_by_clause
  cases h : mapE (substitute_in_order_by_item ps) ob.items <;> simp [h, toUnit]

theorem subst_with_unit (ps : Params) (wc : WithClause) :
    toUnit (substitute_in_with_clause ps wc) = runOccs ps (withOccs wc) := by
  have hob : toUnit (substOption (substitute_in_order_by_clause ps) wc.order_by) =
      runOccs ps (optOccs orderByOccs wc.order_by) :=
    substOption_unit ps _ _ _ (fun x _ => subst_ob_unit ps x)
  have hoccs : withOccs wc =
      (wc.items.map projectionItemOccs).flatten ++ optOccs orderByOccs wc.order_by := by
    unfold withOccs optOccs
    cases wc.order_by <;> rfl
  rw [hoccs, runOccs_append,
    ← mapE_unit ps (substitute_in_projection_item ps) projectionItemOccs wc.items
      (fun item _ => subst_projitem_unit ps item), ← hob]
  unfold substitute_in_with_clause
  cases h1 : mapE (substitute_in_projection_item ps) wc.items with
  | error e => simp [h1, toUnit, seqUnit]
  | ok items2 =>
      cases h2 : substOption (substitute_in_order_by_clause ps) wc.order_by <;>
        simp [h1, h2, toUnit, seqUnit]

theorem subst_return_unit (ps : Params) (rc : ReturnClause) :
    toUnit (substitute_in_return_clause ps rc) = runOccs ps (returnOccs rc) := by
  rw [returnOccs,
    ← mapE_unit ps (substitute_in_projection_item ps) projectionItemOccs rc.items
      (fun item _ => subst_projitem_unit ps item)]
  unfold substitute_in_return_clause
  cases h : mapE (substitute_in_projection_item ps) rc.items <;> simp [h, toUnit]

theorem subst_query_unit (q : CypherQuery) (ps : Params) :
    toUnit (substitute_parameters q ps) = runOccs ps (queryOccs q) := by
  have hr1 : toUnit (mapE (substitute_in_reading_clause ps) q.reading_clauses) =
      runOccs ps ((q.reading_clauses.map readingClauseOccs).flatten) :=
    mapE_unit ps _ _ _ (fun c _ => subst_reading_unit ps c)
  have hw1 : toUnit (substOption (substitute_in_where_clause ps) q.where_clause) =
      runOccs ps (optOccs whereOccs q.where_clause) :=
    substOption_unit ps _ _ _ (fun x _ => subst_where_unit ps x)
  have hwc : toUnit (substOption (substitute_in_with_clause ps) q.with_clause) =
      runOccs ps (optOccs withOccs q.with_clause) :=
    substOption_unit ps _ _ _ (fun x _ => subst_with_unit ps x)
  have hr2 : toUnit (mapE (substitute_in_reading_clause ps) q.post_with_reading_clauses) =
      runOccs ps ((q.post_with_reading_clauses.map readingClauseOccs).flatten) :=
    mapE_unit ps _ _ _ (fun c _ => subst_reading_unit ps c)
  have hw2 : toUnit (substOption (substitute_in_where_clause ps) q.post_with_where_clause) =
      runOccs ps (optOccs whereOccs q.post_with_where_clause) :=
    substOption_unit ps _ _ _ (fun x _ => subst_where_unit ps x)
  have hret : toUnit (substitute_in_return_clause ps q.return_clause) =
      runOccs ps (returnOccs q.return_clause) :=
    subst_return_unit ps q.return_clause
  have hob : toUnit (substOption (substitute_in_order_by_clause ps) q.order_by) =
      runOccs ps (optOccs orderByOccs q.order_by) :=
    substOption_unit ps _ _ _ (fun x _ => subst_ob_unit ps x)
  rw [queryOccs, runOccs_append, runOccs_append, runOccs_append, runOccs_append,
    runOccs_append, runOccs_append,
    ← hr1, ← hw1, ← hwc, ← hr2, ← hw2, ← hret, ← hob]
  unfold substitute_parameters
  cases h1 : mapE (substitute_in_reading_clause ps) q.reading_clauses with
  | error e => simp [h1, toUnit, seqUnit]
  | ok rcs =>
  cases h2 : substOption (substitute_in_where_clause ps) q.where_clause with
  | error e => simp [h1, h2, toUnit, seqUnit]
  | ok wc =>
  cases h3 : substOption (substitute_in_with_clause ps) q.with_clause with
  | error e => simp [h1, h2, h3, toUnit, seqUnit]
  | ok withc =>
  cases h4 : mapE (substitute_in_reading_clause ps) q.post_with_reading_clauses with
  | error e => simp [h1, h2, h3, h4, toUnit, seqUnit]
  | ok prcs =>
  cases h5 : substOption (substitute_in_where_clause ps) q.post_with_where_clause with
  | error e => simp [h1, h2, h3, h4, h5, toUnit, seqUnit]
  | ok pwc =>
  cases h6 : substitute_in_return_clause ps q.return_clause with
  | error e => simp [h1, h2, h3, h4, h5, h6, toUnit, seqUnit]
  | ok retc =>
  cases h7 : substOption (substitute_in_order_by_clause ps) q.order_by <;>
    simp [h1, h2, h3, h4, h5, h6, h7, toUnit, seqUnit]

theorem mapE_ok_occs_nil {α β : Type} (f : α → Except GraphError β)
    (occF : β → List Occ) (h : ∀ x y, f x = .ok y → occF y = []) :
    ∀ l l', mapE f l = .ok l' → (l'.map occF).flatten = [] := by
  intro l
  induction l with
  | nil =>
      intro l' hl
      simp only [mapE] at hl
      cases hl
      rfl
  | cons x rest ih =>
      intro l' hl
      simp only [mapE] at hl
      cases hx : f x with
      | error e => rw [hx] at hl; cases hl
      | ok y =>
          rw [hx] at hl
          cases hrest : mapE f rest with
          | error e => rw [hrest] at hl; cases hl
          | ok ys =>
              rw [hrest] at hl
              cases hl
              simp [h x y hx, ih ys hrest]

theorem mapE_id {α : Type} (f : α → Except GraphError α) (occF : α → List Occ)
    (h : ∀ x, occF x = [] → f x = .ok x) :
    ∀ l, (l.map occF).flatten = [] → mapE f l = .ok l := by
  intro l
  induction l with
  | nil => intro _; rfl
  | cons x rest ih =>
      intro hl
      rw [List.map_cons, List.flatten_cons, List.append_eq_nil] at hl
      simp only [mapE]
      rw [h x hl.1, ih hl.2]

theorem substOption_ok_occs_nil {α : Type} (f : α → Except GraphError α)
    (occF : α → List Occ) (h : ∀ x y, f x = .ok y → occF y = []) :
    ∀ o o', substOption f o = .ok o' → optOccs occF o' = [] := by
  intro o o' ho
  cases o with
  | none => cases ho; rfl
  | some x =>
      simp only [substOption] at ho
      cases hx : f x with
      | error e => rw [hx] at ho; cases ho
      | ok y =>
          rw [hx] at ho
          cases ho
          simpa [optOccs] using h x y hx

theorem substOption_id {α : Type} (f : α → Except GraphError α)
    (occF : α → List Occ) (h : ∀ x, occF x = [] → f x = .ok x) :
    ∀ o, optOccs occF o = [] → substOption f o = .ok o := by
  intro o ho
  cases o with
  | none => rfl
  | some x =>
      simp only [optOccs] at ho
      simp only [substOption]
      rw [h x ho]

theorem jtpv_ok_occs_nil (v : JsonValue) (pv : PropertyValue)
    (h : json_to_property_value v = .ok pv) : propertyValueOccs pv = [] := by
  cases v with
  | null => cases h; rfl
  | bool b => cases h; rfl
  | num n =>
      simp only [json_to_property_value] at h
      cases hn : n.as_i64 with
      | some i => rw [hn] at h; cases h; rfl
      | none =>
          rw [hn] at h
          cases hf : n.as_f64 with
          | some f => rw [hf] at h; cases h; rfl
          | none => rw [hf] at h; cases h; rfl
  | str s => cases h; rfl
  | arr a => cases h
  | obj o => cases h

theorem subst_pv_ok_occs_nil (ps : Params) (v pv2 : PropertyValue)
    (h : substitute_in_property_value ps v = .ok pv2) :
    propertyValueOccs pv2 = [] ∧ (propertyValueOccs v = [] → pv2 = v) := by
  cases v with
  | Parameter name =>
      refine ⟨?_, by intro hv; cases hv⟩
      simp only [substitute_in_property_value] at h
      cases hl : lookupParam ps name with
      | none => rw [hl] at h; cases h
      | some jv =>
          rw [hl] at h
          exact jtpv_ok_occs_nil jv pv2 h
  | Null => cases h; exact ⟨rfl, fun _ => rfl⟩
  | Boolean b => cases h; exact ⟨rfl, fun _ => rfl⟩
  | Integer i => cases h; exact ⟨rfl, fun _ => rfl⟩
  | Float f => cases h; exact ⟨rfl, fun _ => rfl⟩
  | String s => cases h; exact ⟨rfl, fun _ => rfl⟩

theorem subst_pv_id (ps : Params) (v : PropertyValue)
    (h : propertyValueOccs v = []) : substitute_in_property_value ps v = .ok v := by
  cases v with
  | Parameter name => cases h
  | Null => rfl
  | Boolean b => rfl
  | Integer i => rfl
  | Float f => rfl
  | String s => rfl

mutual

theorem subst_vexpr_ok_occs_nil (ps : Params) (e e2 : ValueExpression)
    (h : substitute_in_value_expression ps e = .ok e2) :
    valueExpressionOccs e2 = [] := by
  cases e with
  | Parameter name =>
      simp only [substitute_in_value_expression] at h
      cases hl : lookupParam ps name with
      | none => rw [hl] at h; cases h
      | some jv =>
          rw [hl] at h
          cases jv with
          | arr a =>
              simp only at h
              cases hc : collect_floats name a with
              | error e => rw [hc] at h; cases h
              | ok fs => rw [hc] at h; cases h; rfl
          | null =>
              simp only at h
              cases hj : json_to_property_value .null with
              | error e => rw [hj] at h; cases h
              | ok pv => rw [hj] at h; cases h; rfl
          | bool b =>
              simp only at h
              cases hj : json_to_property_value (.bool b) with
              | error e => rw [hj] at h; cases h
              | ok pv => rw [hj] at h; cases h; rfl
          | num n =>
              simp only at h
              cases hj : json_to_property_value (.num n) with
              | error e => rw [hj] at h; cases h
              | ok pv => rw [hj] at h; cases h; rfl
          | str s =>
              simp only at h
              cases hj : json_to_property_value (.str s) with
              | error e => rw [hj] at h; cases h
              | ok pv => rw [hj] at h; cases h; rfl
          | obj fields =>
              simp only at h
              cases hj : json_to_property_value (.obj fields) with
              | error e => rw [hj] at h; cases h
              | ok pv => rw [hj] at h; cases h; rfl
  | ScalarFunction name args =>
      simp only [substitute_in_value_expression] at h
      cases hs : substitute_args ps args with
      | error e => rw [hs] at h; cases h
      | ok args2 =>
          rw [hs] at h
          cases h
          exact subst_args_ok_occs_nil ps args args2 hs
  | AggregateFunction name args =>
      simp only [substitute_in_value_expression] at h
      cases hs : substitute_args ps args with
      | error e => rw [hs] at h; cases h
      | ok args2 =>
          rw [hs] at h
          cases h
          exact subst_args_ok_occs_nil ps args args2 hs
  | Arithmetic op left right =>
      simp only [substitute_in_value_expression] at h
      cases h1 : substitute_in_value_expression ps left with
      | error e => rw [h1] at h; cases h
      | ok l2 =>
          rw [h1] at h
          cases h2 : substitute_in_value_expression ps right with
          | error e => rw [h2] at h; cases h
          | ok r2 =>
              rw [h2] at h
              cases h
              simp [valueExpressionOccs, subst_vexpr_ok_occs_nil ps left l2 h1,
                subst_vexpr_ok_occs_nil ps right r2 h2]
  | VectorDistance metric left right =>
      simp only [substitute_in_value_expression] at h
      cases h1 : substitute_in_value_expression ps left with
      | error e => rw [h1] at h; cases h
      | ok l2 =>
          rw [h1] at h
          cases h2 : substitute_in_value_expression ps right with
          | error e => rw [h2] at h; cases h
          | ok r2 =>
              rw [h2] at h
              cases h
              simp [valueExpressionOccs, subst_vexpr_ok_occs_nil ps left l2 h1,
                subst_vexpr_ok_occs_nil ps right r2 h2]
  | VectorSimilarity metric left right =>
      simp only [substitute_in_value_expression] at h
      cases h1 : substitute_in_value_expression ps left with
      | error e => rw [h1] at h; cases h
      | ok l2 =>
          rw [h1] at h
          cases h2 : substitute_in_value_expression ps right with
          | error e => rw [h2] at h; cases h
          | ok r2 =>
              rw [h2] at h
              cases h
              simp [valueExpressionOccs, subst_vexpr_ok_occs_nil ps left l2 h1,
                subst_vexpr_ok_occs_nil ps right r2 h2]
  | Literal v => cases h; rfl
  | VectorLiteral elems => cases h; rfl
  | Variable name => cases h; rfl
  | PropertyAccess v p => cases h; rfl

theorem subst_args_ok_occs_nil (ps : Params) (l l2 : List ValueExpression)
    (h : substitute_args ps l = .ok l2) : argsOccs l2 = [] := by
  cases l with
  | nil => cases h; rfl
  | cons a rest =>
      simp only [substitute_args] at h
      cases ha : substitute_in_value_expression ps a with
      | error e => rw [ha] at h; cases h
      | ok a2 =>
          rw [ha] at h
          cases hrest : substitute_args ps rest with
          | error e => rw [hrest] at h; cases h
          | ok rest2 =>
              rw [hrest] at h
              cases h
              simp [argsOccs, subst_vexpr_ok_occs_nil ps a a2 ha,
                subst_args_ok_occs_nil ps rest rest2 hrest]

end

mutual

theorem subst_vexpr_id (ps : Params) (e : ValueExpression)
    (h : valueExpressionOccs e = []) :
    substitute_in_value_expression ps e = .ok e := by
  cases e with
  | Parameter name => cases h
  | ScalarFunction name args =>
      simp only [valueExpressionOccs] at h
      simp only [substitute_in_value_expression]
      rw [subst_args_id ps args h]
  | AggregateFunction name args =>
      simp only [valueExpressionOccs] at h
      simp only [substitute_in_value_expression]
      rw [subst_args_id ps args h]
  | Arithmetic op left right =>
      rw [valueExpressionOccs, List.append_eq_nil] at h
      simp only [substitute_in_value_expression]
      rw [subst_vexpr_id ps left h.1, subst_vexpr_id ps right h.2]
  | VectorDistance metric left right =>
      rw [valueExpressionOccs, List.append_eq_nil] at h
      simp only [substitute_in_value_expression]
      rw [subst_vexpr_id ps left h.1, subst_vexpr_id ps right h.2]
  | VectorSimilarity metric left right =>
      rw [valueExpressionOccs, List.append_eq_nil] at h
      simp only [substitute_in_value_expression]
      rw [subst_vexpr_id ps left h.1, subst_vexpr_id ps right h.2]
  | Literal v => rfl
  | VectorLiteral elems => rfl
  | Variable name => rfl
  | PropertyAccess v p => rfl

theorem subst_args_id (ps : Params) (l : List ValueExpression)
    (h : argsOccs l = []) : substitute_args ps l = .ok l := by
  cases l with
  | nil => rfl
  | cons a rest =>
      rw [argsOccs, List.append_eq_nil] at h
      simp only [substitute_args]
      rw [subst_vexpr_id ps a h.1, subst_args_id ps rest h.2]

end

theorem subst_bexpr_ok_occs_nil (ps : Params) (b : BooleanExpression) :
    ∀ b2, substitute_in_boolean_expression ps b = .ok b2 →
      booleanExpressionOccs b2 = [] := by
  induction b with
  | Comparison op left right =>
      intro b2 h
      simp only [substitute_in_boolean_expression] at h
      cases h1 : substitute_in_value_expression ps left with
      | error e => rw [h1] at h; cases h
      | ok l2 =>
          rw [h1] at h
          cases h2 : substitute_in_value_expression ps right with
          | error e => rw [h2] at h; cases h
          | ok r2 =>
              rw [h2] at h
              cases h
              simp [booleanExpressionOccs, subst_vexpr_ok_occs_nil ps left l2 h1,
                subst_vexpr_ok_occs_nil ps right r2 h2]
  | And left right ihl ihr =>
      intro b2 h
      simp only [substitute_in_boolean_expression] at h
      cases h1 : substitute_in_boolean_expression ps left with
      | error e => rw [h1] at h; cases h
      | ok l2 =>
          rw [h1] at h
          cases h2 : substitute_in_boolean_expression ps right with
          | error e => rw [h2] at h; cases h
          | ok r2 =>
              rw [h2] at h
              cases h
              simp [booleanExpressionOccs, ihl l2 h1, ihr r2 h2]
  | Or left right ihl ihr =>
      intro b2 h
      simp only [substitute_in_boolean_expression] at h
      cases h1 : substitute_in_boolean_expression ps left with
      | error e => rw [h1] at h; cases h
      | ok l2 =>
          rw [h1] at h
          cases h2 : substitute_in_boolean_expression ps right with
          | error e => rw [h2] at h; cases h
          | ok r2 =>
              rw [h2] at h
              cases h
              simp [booleanExpressionOccs, ihl l2 h1, ihr r2 h2]
  | Not inner ih =>
      intro b2 h
      simp only [substitute_in_boolean_expression] at h
      cases h1 : substitute_in_boolean_expression ps inner with
      | error e => rw [h1] at h; cases h
      | ok i2 =>
          rw [h1] at h
          cases h
          simp [booleanExpressionOccs, ih i2 h1]
  | Exists p =>
      intro b2 h
      cases h
      rfl
  | In expression list =>
      intro b2 h
      simp only [substitute_in_boolean_expression] at h
      cases h1 : substitute_in_value_expression ps expression with
      | error e => rw [h1] at h; cases h
      | ok e2 =>
          rw [h1] at h
          cases h2 : substitute_args ps list with
          | error e => rw [h2] at h; cases h
          | ok list2 =>
              rw [h2] at h
              cases h
              simp [booleanExpressionOccs, subst_vexpr_ok_occs_nil ps expression e2 h1,
                subst_args_ok_occs_nil ps list list2 h2]
  | Like expression pat =>
      intro b2 h
      simp only [substitute_in_boolean_expression] at h
      cases h1 : substitute_in_value_expression ps expression with
      | error e => rw [h1] at h; cases h
      | ok e2 =>
          rw [h1] at h; cases h
          simp [booleanExpressionOccs, subst_vexpr_ok_occs_nil ps expression e2 h1]
  | ILike expression pat =>
      intro b2 h
      simp only [substitute_in_boolean_expression] at h
      cases h1 : substitute_in_value_expression ps expression with
      | error e => rw [h1] at h; cases h
      | ok e2 =>
          rw [h1] at h; cases h
          simp [booleanExpressionOccs, subst_vexpr_ok_occs_nil ps expression e2 h1]
  | Contains expression v =>
      intro b2 h
      simp only [substitute_in_boolean_expression] at h
      cases h1 : substitute_in_value_expression ps expression with
      | error e => rw [h1] at h; cases h
      | ok e2 =>
          rw [h1] at h; cases h
          simp [booleanExpressionOccs, subst_vexpr_ok_occs_nil ps expression e2 h1]
  | StartsWith expression v =>
      intro b2 h
      simp only [substitute_in_boolean_expression] at h
      cases h1 : substitute_in_value_expression ps expression with
      | error e => rw [h1] at h; cases h
      | ok e2 =>
          rw [h1] at h; cases h
          simp [booleanExpressionOccs, subst_vexpr_ok_occs_nil ps expression e2 h1]
  | EndsWith expression v =>
      intro b2 h
      simp only [substitute_in_boolean_expression] at h
      cases h1 : substitute_in_value_expression ps expression with
      | error e => rw [h1] at h; cases h
      | ok e2 =>
          rw [h1] at h; cases h
          simp [booleanExpressionOccs, subst_vexpr_ok_occs_nil ps expression e2 h1]
  | IsNull expression =>
      intro b2 h
      simp only [substitute_in_boolean_expression] at h
      cases h1 : substitute_in_value_expression ps expression with
      | error e => rw [h1] at h; cases h
      | ok e2 =>
          rw [h1] at h; cases h
          simp [booleanExpressionOccs, subst_vexpr_ok_occs_nil ps expression e2 h1]
  | IsNotNull expression =>
      intro b2 h
      simp only [substitute_in_boolean_expression] at h
      cases h1 : substitute_in_value_expression ps expression with
      | error e => rw [h1] at h; cases h
      | ok e2 =>
          rw [h1] at h; cases h
          simp [booleanExpressionOccs, subst_vexpr_ok_occs_nil ps expression e2 h1]

theorem subst_bexpr_id (ps : Params) (b : BooleanExpression)
    (h : booleanExpressionOccs b = []) :
    substitute_in_boolean_expression ps b = .ok b := by
  induction b with
  | Comparison op left right =>
      rw [booleanExpressionOccs, List.append_eq_nil] at h
      simp only [substitute_in_boolean_expression]
      rw [subst_vexpr_id ps left h.1, subst_vexpr_id ps right h.2]
  | And left right ihl ihr =>
      rw [booleanExpressionOccs, List.append_eq_nil] at h
      simp only [substitute_in_boolean_expression]
      rw [ihl h.1, ihr h.2]
  | Or left right ihl ihr =>
      rw [booleanExpressionOccs, List.append_eq_nil] at h
      simp only [substitute_in_boolean_expression]
      rw [ihl h.1, ihr h.2]
  | Not inner ih =>
      rw [booleanExpressionOccs] at h
      simp only [substitute_in_boolean_expression]
      rw [ih h]
  | Exists p => rfl
  | In expression list =>
      rw [booleanExpressionOccs, List.append_eq_nil] at h
      simp only [substitute_in_boolean_expression]
      rw [subst_vexpr_id ps expression h.1, subst_args_id ps list h.2]
  | Like expression pat =>
      rw [booleanExpressionOccs] at h
      simp only [substitute_in_boolean_expression]
      rw [subst_vexpr_id ps expression h]
  | ILike expression pat =>
      rw [booleanExpressionOccs] at h
      simp only [substitute_in_boolean_expression]
      rw [subst_vexpr_id ps expression h]
  | Contains expression v =>
      rw [booleanExpressionOccs] at h
      simp only [substitute_in_boolean_expression]
      rw [subst_vexpr_id ps expression h]
  | StartsWith expression v =>
      rw [booleanExpressionOccs] at h
      simp only [substitute_in_boolean_expression]
      rw [subst_vexpr_id ps expression h]
  | EndsWith expression v =>
      rw [booleanExpressionOccs] at h
      simp only [substitute_in_boolean_expression]
      rw [subst_vexpr_id ps expression h]
  | IsNull expression =>
      rw [booleanExpressionOccs] at h
      simp only [substitute_in_boolean_expression]
      rw [subst_vexpr_id ps expression h]
  | IsNotNull expression =>
      rw [booleanExpressionOccs] at h
      simp only [substitute_in_boolean_expression]
      rw [subst_vexpr_id ps expression h]

theorem subst_props_ok_occs_nil (ps : Params)
    (props props2 : List (String × PropertyValue))
    (h : substitute_in_properties ps props = .ok props2) :
    propertiesOccs props2 = [] := by
  refine mapE_ok_occs_nil _ (fun kv => propertyValueOccs kv.2) ?_ props props2 h
  intro kv y hy
  cases hv : substitute_in_property_value ps kv.2 with
  | error e => rw [hv] at hy; cases hy
  | ok v2 =>
      rw [hv] at hy
      cases hy
      exact (subst_pv_ok_occs_nil ps kv.2 v2 hv).1

theorem subst_props_id (ps : Params) (props : List (String × PropertyValue))
    (h : propertiesOccs props = []) :
    substitute_in_properties ps props = .ok props := by
  unfold propertiesOccs at h
  refine mapE_id _ (fun kv => propertyValueOccs kv.2) ?_ props h
  intro kv hkv
  rw [subst_pv_id ps kv.2 hkv]

theorem subst_node_ok_occs_nil (ps : Params) (node node2 : NodePattern)
    (h : substitute_in_node_pattern ps node = .ok node2) : nodeOccs node2 = [] := by
  simp only [substitute_in_node_pattern] at h
  cases hp : substitute_in_properties ps node.properties with
  | error e => rw [hp] at h; cases h
  | ok props2 =>
      rw [hp] at h
      cases h
      exact subst_props_ok_occs_nil ps node.properties props2 hp

theorem subst_node_id (ps : Params) (node : NodePattern)
    (h : nodeOccs node = []) : substitute_in_node_pattern ps node = .ok node := by
  simp only [substitute_in_node_pattern]
  rw [subst_props_id ps node.properties h]

theorem subst_rel_ok_occs_nil (ps : Params) (rel rel2 : RelationshipPattern)
    (h : substitute_in_relationship_pattern ps rel = .ok rel2) : relOccs rel2 = [] := by
  simp only [substitute_in_relationship_pattern] at h
  cases hp : substitute_in_properties ps rel.properties with
  | error e => rw [hp] at h; cases h
  | ok props2 =>
      rw [hp] at h
      cases h
      exact subst_props_ok_occs_nil ps rel.properties props2 hp

theorem subst_rel_id (ps : Params) (rel : RelationshipPattern)
    (h : relOccs rel = []) : substitute_in_relationship_pattern ps rel = .ok rel := by
  simp only [substitute_in_relationship_pattern]
  rw [subst_props_id ps rel.properties h]

theorem subst_segment_ok_occs_nil (ps : Params) (seg seg2 : PathSegment)
    (h : substitute_in_segment ps seg = .ok seg2) : segmentOccs seg2 = [] := by
  simp only [substitute_in_segment] at h
  cases h1 : substitute_in_relationship_pattern ps seg.relationship with
  | error e => rw [h1] at h; cases h
  | ok rel2 =>
      rw [h1] at h
      cases h2 : substitute_in_node_pattern ps seg.end_node with
      | error e => rw [h2] at h; cases h
      | ok end2 =>
          rw [h2] at h
          cases h
          simp [segmentOccs, subst_rel_ok_occs_nil ps seg.relationship rel2 h1,
            subst_node_ok_occs_nil ps seg.end_node end2 h2]

theorem subst_segment_id (ps : Params) (seg : PathSegment)
    (h : segmentOccs seg = []) : substitute_in_segment ps seg = .ok seg := by
  rw [segmentOccs, List.append_eq_nil] at h
  simp only [substitute_in_segment]
  rw [subst_rel_id ps seg.relationship h.1, subst_node_id ps seg.end_node h.2]

theorem subst_pattern_ok_occs_nil (ps : Params) (p p2 : GraphPattern)
    (h : substitute_in_graph_pattern ps p = .ok p2) : patternOccs p2 = [] := by
  cases p with
  | Node node =>
      simp only [substitute_in_graph_pattern] at h
      cases hp : substitute_in_properties ps node.properties with
      | error e => rw [hp] at h; cases h
      | ok props2 =>
          rw [hp] at h
          cases h
          simpa [patternOccs, nodeOccs] using
            subst_props_ok_occs_nil ps node.properties props2 hp
  | Path path =>
      simp only [substitute_in_graph_pattern] at h
      cases h1 : substitute_in_node_pattern ps path.start_node with
      | error e => rw [h1] at h; cases h
      | ok start2 =>
          rw [h1] at h
          cases h2 : mapE (substitute_in_segment ps) path.segments with
          | error e => rw [h2] at h; cases h
          | ok segs2 =>
              rw [h2] at h
              cases h
              have hsegs : (segs2.map segmentOccs).flatten = [] := by
                refine mapE_ok_occs_nil _ segmentOccs ?_ path.segments segs2 h2
                intro seg seg2 hseg
                exact subst_segment_ok_occs_nil ps seg seg2 hseg
              simp [patternOccs, subst_node_ok_occs_nil ps path.start_node start2 h1, hsegs]

theorem subst_pattern_id (ps : Params) (p : GraphPattern)
    (h : patternOccs p = []) : substitute_in_graph_pattern ps p = .ok p := by
  cases p with
  | Node node =>
      simp only [patternOccs, nodeOccs] at h
      simp only [substitute_in_graph_pattern]
      rw [subst_props_id ps node.properties h]
  | Path path =>
      rw [patternOccs, List.append_eq_nil] at h
      simp only [substitute_in_graph_pattern]
      rw [subst_node_id ps path.start_node h.1]
      rw [mapE_id _ segmentOccs (fun seg hseg => subst_segment_id ps seg hseg)
        path.segments h.2]

theorem subst_reading_ok_occs_nil (ps : Params) (c c2 : ReadingClause)
    (h : substitute_in_reading_clause ps c = .ok c2) : readingClauseOccs c2 = [] := by
  cases c with
  | Match mc =>
      simp only [substitute_in_reading_clause] at h
      cases hp : mapE (substitute_in_graph_pattern ps) mc.patterns with
      | error e => rw [hp] at h; cases h
      | ok pats2 =>
          rw [hp] at h
          cases h
          simpa [readingClauseOccs] using
            mapE_ok_occs_nil _ patternOccs
              (fun p p2 hp2 => subst_pattern_ok_occs_nil ps p p2 hp2) mc.patterns pats2 hp
  | Unwind uc =>
      simp only [substitute_in_reading_clause] at h
      cases he : substitute_in_value_expression ps uc.expression with
      | error e => rw [he] at h; cases h
      | ok expr2 =>
          rw [he] at h
          cases h
          simpa [readingClauseOccs] using
            subst_vexpr_ok_occs_nil ps uc.expression expr2 he

theorem subst_reading_id (ps : Params) (c : ReadingClause)
    (h : readingClauseOccs c = []) : substitute_in_reading_clause ps c = .ok c := by
  cases c with
  | Match mc =>
      simp only [readingClauseOccs] at h
      simp only [substitute_in_reading_clause]
      rw [mapE_id _ patternOccs (fun p hp => subst_pattern_id ps p hp) mc.patterns h]
  | Unwind uc =>
      simp only [readingClauseOccs] at h
      simp only [substitute_in_reading_clause]
      rw [subst_vexpr_id ps uc.expression h]

theorem subst_where_ok_occs_nil (ps : Params) (w w2 : WhereClause)
    (h : substitute_in_where_clause ps w = .ok w2) : whereOccs w2 = [] := by
  simp only [substitute_in_where_clause] at h
  cases hb : substitute_in_boolean_expression ps w.expression with
  | error e => rw [hb] at h; cases h
  | ok b2 =>
      rw [hb] at h
      cases h
      simpa [whereOccs] using subst_bexpr_ok_occs_nil ps w.expression b2 hb

theorem subst_where_id (ps : Params) (w : WhereClause)
    (h : whereOccs w = []) : substitute_in_where_clause ps w = .ok w := by
  simp only [substitute_in_where_clause]
  rw [subst_bexpr_id ps w.expression h]

theorem subst_projitem_ok_occs_nil (ps : Params) (item item2 : ProjectionItem)
    (h : substitute_in_projection_item ps item = .ok item2) :
    projectionItemOccs item2 = [] := by
  simp only [substitute_in_projection_item] at h
  cases he : substitute_in_value_expression ps item.expression with
  | error e => rw [he] at h; cases h
  | ok expr2 =>
      rw [he] at h
      cases h
      simpa [projectionItemOccs] using
        subst_vexpr_ok_occs_nil ps item.expression expr2 he

theorem subst_projitem_id (ps : Params) (item : ProjectionItem)
    (h : projectionItemOccs item = []) :
    substitute_in_projection_item ps item = .ok item := by
  simp only [substitute_in_projection_item]
  rw [subst_vexpr_id ps item.expression h]

theorem subst_obitem_ok_occs_nil (ps : Params) (item item2 : OrderByItem)
    (h : substitute_in_order_by_item ps item = .ok item2) :
    orderByItemOccs item2 = [] := by
  simp only [substitute_in_order_by_item] at h
  cases he : substitute_in_value_expression ps item.expression with
  | error e => rw [he] at h; cases h
  | ok expr2 =>
      rw [he] at h
      cases h
      simpa [orderByItemOccs] using
        subst_vexpr_ok_occs_nil ps item.expression expr2 he

theorem subst_obitem_id (ps : Params) (item : OrderByItem)
    (h : orderByItemOccs item = []) :
    substitute_in_order_by_item ps item = .ok item := by
  simp only [substitute_in_order_by_item]
  rw [subst_vexpr_id ps item.expression h]

theorem subst_ob_ok_occs_nil (ps : Params) (ob ob2 : OrderByClause)
    (h : substitute_in_order_by_clause ps ob = .ok ob2) : orderByOccs ob2 = [] := by
  simp only [substitute_in_order_by_clause] at h
  cases hi : mapE (substitute_in_order_by_item ps) ob.items with
  | error e => rw [hi] at h; cases h
  | ok items2 =>
      rw [hi] at h
      cases h
      simpa [orderByOccs] using
        mapE_ok_occs_nil _ orderByItemOccs
          (fun i i2 hi2 => subst_obitem_ok_occs_nil ps i i2 hi2) ob.items items2 hi

theorem subst_ob_id (ps : Params) (ob : OrderByClause)
    (h : orderByOccs ob = []) : substitute_in_order_by_clause ps ob = .ok ob := by
  simp only [substitute_in_order_by_clause]
  rw [mapE_id _ orderByItemOccs (fun i hi => subst_obitem_id ps i hi) ob.items h]

theorem subst_with_ok_occs_nil (ps : Params) (wc wc2 : WithClause)
    (h : substitute_in_with_clause ps wc = .ok wc2) : withOccs wc2 = [] := by
  simp only [substitute_in_with_clause] at h
  cases hi : mapE (substitute_in_projection_item ps) wc.items with
  | error e => rw [hi] at h; cases h
  | ok items2 =>
      rw [hi] at h
      cases ho : substOption (substitute_in_order_by_clause ps) wc.order_by with
      | error e => rw [ho] at h; cases h
      | ok ob2 =>
          rw [ho] at h
          cases h
          have h1 : (items2.map projectionItemOccs).flatten = [] :=
            mapE_ok_occs_nil _ projectionItemOccs
              (fun i i2 hi2 => subst_projitem_ok_occs_nil ps i i2 hi2) wc.items items2 hi
          have h2 : optOccs orderByOccs ob2 = [] :=
            substOption_ok_occs_nil _ orderByOccs
              (fun x y hxy => subst_ob_ok_occs_nil ps x y hxy) wc.order_by ob2 ho
          simp only [withOccs]
          rw [h1]
          cases hob2 : ob2 with
          | none => rfl
          | some obv =>
              rw [hob2] at h2
              simpa [optOccs] using h2
  

theorem subst_with_id (ps : Params) (wc : WithClause)
    (h : withOccs wc = []) : substitute_in_with_clause ps wc = .ok wc := by
  simp only [withOccs] at h
  rw [List.append_eq_nil] at h
  simp only [substitute_in_with_clause]
  rw [mapE_id _ projectionItemOccs (fun i hi => subst_projitem_id ps i hi) wc.items h.1]
  have hob : optOccs orderByOccs wc.order_by = [] := by
    cases hw : wc.order_by with
    | none => rfl
    | some obv =>
        rw [hw] at h
        simpa [optOccs] using h.2
  rw [substOption_id _ orderByOccs (fun x hx => subst_ob_id ps x hx) wc.order_by hob]

theorem subst_return_ok_occs_nil (ps : Params) (rc rc2 : ReturnClause)
    (h : substitute_in_return_clause ps rc = .ok rc2) : returnOccs rc2 = [] := by
  simp only [substitute_in_return_clause] at h
  cases hi : mapE (substitute_in_projection_item ps) rc.items with
  | error e => rw [hi] at h; cases h
  | ok items2 =>
      rw [hi] at h
      cases h
      simpa [returnOccs] using
        mapE_ok_occs_nil _ projectionItemOccs
          (fun i i2 hi2 => subst_projitem_ok_occs_nil ps i i2 hi2) rc.items items2 hi

theorem subst_return_id (ps : Params) (rc : ReturnClause)
    (h : returnOccs rc = []) : substitute_in_return_clause ps rc = .ok rc := by
  simp only [substitute_in_return_clause]
  rw [mapE_id _ projectionItemOccs (fun i hi => subst_projitem_id ps i hi) rc.items h]

theorem subst_query_ok_occs_nil (q : CypherQuery) (ps : Params) (q2 : CypherQuery)
    (h : substitute_parameters q ps = .ok q2) : queryOccs q2 = [] := by
  unfold substitute_parameters at h
  cases h1 : mapE (substitute_in_reading_clause ps) q.reading_clauses with
  | error e => rw [h1] at h; cases h
  | ok rcs =>
  rw [h1] at h
  cases h2 : substOption (substitute_in_where_clause ps) q.where_clause with
  | error e => rw [h2] at h; cases h
  | ok wc =>
  rw [h2] at h
  cases h3 : substOption (substitute_in_with_clause ps) q.with_clause with
  | error e => rw [h3] at h; cases h
  | ok withc =>
  rw [h3] at h
  cases h4 : mapE (substitute_in_reading_clause ps) q.post_with_reading_clauses with
  | error e => rw [h4] at h; cases h
  | ok prcs =>
  rw [h4] at h
  cases h5 : substOption (substitute_in_where_clause ps) q.post_with_where_clause with
  | error e => rw [h5] at h; cases h
  | ok pwc =>
  rw [h5] at h
  cases h6 : substitute_in_return_clause ps q.return_clause with
  | error e => rw [h6] at h; cases h
  | ok retc =>
  rw [h6] at h
  cases h7 : substOption (substitute_in_order_by_clause ps) q.order_by with
  | error e => rw [h7] at h; cases h
  | ok obc =>
  rw [h7] at h
  cases h
  have e1 := mapE_ok_occs_nil _ readingClauseOccs
    (fun c c2 hc => subst_reading_ok_occs_nil ps c c2 hc) q.reading_clauses rcs h1
  have e2 := substOption_ok_occs_nil _ whereOccs
    (fun x y hxy => subst_where_ok_occs_nil ps x y hxy) q.where_clause wc h2
  have e3 := substOption_ok_occs_nil _ withOccs
    (fun x y hxy => subst_with_ok_occs_nil ps x y hxy) q.with_clause withc h3
  have e4 := mapE_ok_occs_nil _ readingClauseOccs
    (fun c c2 hc => subst_reading_ok_occs_nil ps c c2 hc) q.post_with_reading_clauses prcs h4
  have e5 := substOption_ok_occs_nil _ whereOccs
    (fun x y hxy => subst_where_ok_occs_nil ps x y hxy) q.post_with_where_clause pwc h5
  have e6 := subst_return_ok_occs_nil ps q.return_clause retc h6
  have e7 := substOption_ok_occs_nil _ orderByOccs
    (fun x y hxy => subst_ob_ok_occs_nil ps x y hxy) q.order_by obc h7
  simp [queryOccs, e1, e2, e3, e4, e5, e6, e7]

theorem subst_query_id (q : CypherQuery) (ps : Params)
    (h : queryOccs q = []) : substitute_parameters q ps = .ok q := by
  unfold queryOccs at h
  rw [List.append_eq_nil] at h
  obtain ⟨h123456, h7⟩ := h
  rw [List.append_eq_nil] at h123456
  obtain ⟨h12345, h6⟩ := h123456
  rw [List.append_eq_nil] at h12345
  obtain ⟨h1234, h5⟩ := h12345
  rw [List.append_eq_nil] at h1234
  obtain ⟨h123, h4⟩ := h1234
  rw [List.append_eq_nil] at h123
  obtain ⟨h12, h3⟩ := h123
  rw [List.append_eq_nil] at h12
  obtain ⟨h1, h2⟩ := h12
  unfold substitute_parameters
  rw [mapE_id _ readingClauseOccs (fun c hc => subst_reading_id ps c hc)
    q.reading_clauses h1]
  rw [substOption_id _ whereOccs (fun x hx => subst_where_id ps x hx)
    q.where_clause h2]
  rw [substOption_id _ withOccs (fun x hx => subst_with_id ps x hx)
    q.with_clause h3]
  rw [mapE_id _ readingClauseOccs (fun c hc => subst_reading_id ps c hc)
    q.post_with_reading_clauses h4]
  rw [substOption_id _ whereOccs (fun x hx => subst_where_id ps x hx)
    q.post_with_where_clause h5]
  rw [subst_return_id ps q.return_clause h6]
  rw [substOption_id _ orderByOccs (fun x hx => subst_ob_id ps x hx)
    q.order_by h7]

theorem resolveOcc_missing (ps : Params) (o : Occ)
    (h : lookupParam ps o.occName = none) :
    resolveOcc ps o = .error (.planError (missingParamMsg o.occName)) := by
  cases o with
  | prop name => simp only [Occ.occName] at h; simp [resolveOcc, h, Occ.occName]
  | expr name => simp only [Occ.occName] at h; simp [resolveOcc, h, Occ.occName]

theorem runOccs_ok_iff (ps : Params) (l : List Occ) :
    runOccs ps l = .ok () ↔ ∀ o ∈ l, resolveOcc ps o = .ok () := by
  induction l with
  | nil => simp [runOccs]
  | cons o rest ih =>
      simp only [runOccs]
      cases h : resolveOcc ps o with
      | error e =>
          simp only [List.mem_cons]
          constructor
          · intro hc; cases hc
          · intro hall
            have := hall o (Or.inl rfl)
            rw [h] at this
            cases this
      | ok u =>
          cases u
          rw [ih]
          simp only [List.mem_cons]
          constructor
          · intro hall o2 ho2
            cases ho2 with
            | inl he => rw [he]; exact h
            | inr hm => exact hall o2 hm
          · intro hall o2 ho2
            exact hall o2 (Or.inr ho2)

theorem runOccs_error_iff_firstFailure (ps : Params) (l : List Occ) (e : GraphError) :
    runOccs ps l = .error e ↔ firstFailure ps l = some e := by
  induction l with
  | nil => simp [runOccs, firstFailure]
  | cons o rest ih =>
      simp only [runOccs, firstFailure]
      cases h : resolveOcc ps o with
      | error e2 => simp
      | ok u => cases u; exact ih

theorem runOccs_error_of_mem (ps : Params) (l : List Occ) (o : Occ) (e : GraphError)
    (hmem : o ∈ l) (herr : resolveOcc ps o = .error e) :
    ∃ e2, runOccs ps l = .error e2 := by
  induction l with
  | nil => cases hmem
  | cons o1 rest ih =>
      simp only [runOccs]
      cases h : resolveOcc ps o1 with
      | error e2 => exact ⟨e2, rfl⟩
      | ok u =>
          cases u
          rcases List.mem_cons.mp hmem with he | hm
          · rw [he] at herr; rw [herr] at h; cases h
          · exact ih hm

theorem jtpv_ok_of_scalar (v : JsonValue) (h : v.isScalar = true) :
    ∃ pv, json_to_property_value v = .ok pv := by
  cases v with
  | null => exact ⟨.Null, rfl⟩
  | bool b => exact ⟨.Boolean b, rfl⟩
  | num n =>
      simp only [json_to_property_value]
      cases hn : n.as_i64 with
      | some i => exact ⟨.Integer i, rfl⟩
      | none =>
          cases hf : n.as_f64 with
          | some f => exact ⟨.Float f, rfl⟩
          | none => exact ⟨.Null, rfl⟩
  | str s => exact ⟨.String s, rfl⟩
  | arr a => cases h
  | obj o => cases h

theorem jtpv_err_of_not_scalar (v : JsonValue) (h : v.isScalar = false) :
    json_to_property_value v = .error (.planError complexTypeMsg) := by
  cases v with
  | null => cases h
  | bool b => cases h
  | num n => cases h
  | str s => cases h
  | arr a => rfl
  | obj o => rfl

theorem collect_floats_spec (name : String) :
    ∀ l, allNumeric l = true → collect_floats name l = .ok (floatsOf l) := by
  intro l
  induction l with
  | nil => intro _; rfl
  | cons v rest ih =>
      intro h
      simp only [allNumeric, List.all_cons, Bool.and_eq_true] at h
      obtain ⟨hv, hrest⟩ := h
      cases hf : v.value_as_f64 with
      | none => rw [hf] at hv; cases hv
      | some f =>
          have := ih hrest
          simp [collect_floats, hf, this, floatsOf]

theorem collect_floats_fail (name : String) :
    ∀ l, allNumeric l = false →
      collect_floats name l = .error (.planError (nonNumericListMsg name)) := by
  intro l
  induction l with
  | nil => intro h; cases h
  | cons v rest ih =>
      intro h
      cases hf : v.value_as_f64 with
      | none => simp [collect_floats, hf]
      | some f =>
          have hrest : allNumeric rest = false := by
            simp only [allNumeric, List.all_cons, hf, Option.isSome_some,
              Bool.true_and] at h
            exact h
          simp [collect_floats, hf, ih hrest]

theorem occResolvable_iff (ps : Params) (o : Occ) :
    occResolvable ps o = true ↔ resolveOcc ps o = .ok () := by
  cases o with
  | prop name =>
      simp only [occResolvable, resolveOcc]
      cases hl : lookupParam ps name with
      | none => simp
      | some v =>
          cases hs : v.isScalar with
          | true =>
              obtain ⟨pv, hpv⟩ := jtpv_ok_of_scalar v hs
              simp [hpv, hs]
          | false =>
              have he := jtpv_err_of_not_scalar v hs
              simp [he, hs]
  | expr name =>
      simp only [occResolvable, resolveOcc]
      cases hl : lookupParam ps name with
      | none => simp
      | some v =>
          cases v with
          | arr a =>
              cases ha : allNumeric a with
              | true => simp [collect_floats_spec name a ha, ha]
              | false => simp [collect_floats_fail name a ha, ha]
          | null => simp [json_to_property_value, JsonValue.isScalar]
          | bool b => simp [json_to_property_value, JsonValue.isScalar]
          | num n =>
              simp only [JsonValue.isScalar]
              obtain ⟨pv, hpv⟩ := jtpv_ok_of_scalar (.num n) rfl
              simp [hpv]
          | str s => simp [json_to_property_value, JsonValue.isScalar]
          | obj fields => simp [json_to_property_value, JsonValue.isScalar]

theorem mapE_ok_spec {α β : Type} (f : α → Except GraphError β) :
    ∀ l l2, mapE f l = .ok l2 →
      l2.length = l.length ∧
      ∀ i (hi : i < l.length) (hi2 : i < l2.length),
        f (l.get ⟨i, hi⟩) = .ok (l2.get ⟨i, hi2⟩) := by
  intro l
  induction l with
  | nil =>
      intro l2 h
      cases h
      exact ⟨rfl, fun i hi hi2 => absurd hi (Nat.not_lt_zero i)⟩
  | cons x rest ih =>
      intro l2 h
      simp only [mapE] at h
      cases hx : f x with
      | error e => rw [hx] at h; cases h
      | ok y =>
          rw [hx] at h
          cases hrest : mapE f rest with
          | error e => rw [hrest] at h; cases h
          | ok ys =>
              rw [hrest] at h
              cases h
              obtain ⟨hlen, hget⟩ := ih ys hrest
              refine ⟨by simp [hlen], ?_⟩
              intro i hi hi2
              cases i with
              | zero => simpa using hx
              | succ j =>
                  have hj : j < rest.length := Nat.lt_of_succ_lt_succ hi
                  have hj2 : j < ys.length := Nat.lt_of_succ_lt_succ hi2
                  simpa using hget j hj hj2

theorem substOption_ok_isSome {α : Type} (f : α → Except GraphError α) :
    ∀ o o2, substOption f o = .ok o2 → o2.isSome = o.isSome := by
  intro o o2 h
  cases o with
  | none => cases h; rfl
  | some x =>
      simp only [substOption] at h
      cases hx : f x with
      | error e => rw [hx] at h; cases h
      | ok y => rw [hx] at h; cases h; rfl

theorem floatsOf_length (l : List JsonValue) (h : allNumeric l = true) :
    (floatsOf l).length = l.length := by
  induction l with
  | nil => rfl
  | cons v rest ih =>
      simp only [allNumeric, List.all_cons, Bool.and_eq_true] at h
      obtain ⟨hv, hrest⟩ := h
      cases hf : v.value_as_f64 with
      | none => rw [hf] at hv; cases hv
      | some f =>
          rw [allNumeric] at ih
          simp [floatsOf, hf, List.filterMap_cons]
          simpa [floatsOf] using ih hrest

/-- C1 (counterexample): the claim as stated fails on the code. A
`ValueExpression.Literal` payload is a `PropertyValue`, which includes the
`Parameter` variant; the pass never descends into a Literal's payload, so a
query whose only parameter constructor sits there substitutes successfully
while a `PropertyValue.Parameter` node remains in the tree, even though the
name is bound to a scalar. -/
theorem C1_totality_counterexample :
    queryDeepParams literalWrappedQuery = ["x"] ∧
    lookupParam xTo42 "x" = some (.num ⟨some 42, some 42⟩) ∧
    JsonValue.isScalar (.num ⟨some 42, some 42⟩) = true ∧
    substitute_parameters literalWrappedQuery xTo42 = .ok literalWrappedQuery ∧
    queryDeepParams literalWrappedQuery ≠ [] :=
  ⟨by decide, by rfl, by rfl, by rfl, by decide⟩

/-- C1 (amended): for every query and parameter map in which every parameter
reference the pass visits (node/relationship property values and
value-expression positions — not the payload of a pre-existing Literal
expression) is bound to a scalar-compatible value (a scalar in property
positions; a scalar or all-numeric array in value-expression positions),
`substitute_parameters` succeeds and the result contains no parameter
reference in any visited position. -/
theorem C1_totality (q : CypherQuery) (ps : Params)
    (h : ∀ o ∈ queryOccs q, occResolvable ps o = true) :
    ∃ q2, substitute_parameters q ps = .ok q2 ∧ queryOccs q2 = [] := by
  have hrun : runOccs ps (queryOccs q) = .ok () :=
    (runOccs_ok_iff ps (queryOccs q)).mpr
      (fun o ho => (occResolvable_iff ps o).mp (h o ho))
  have hunit := subst_query_unit q ps
  rw [hrun] at hunit
  cases hs : substitute_parameters q ps with
  | error e =>
      rw [hs] at hunit
      simp [toUnit] at hunit
  | ok q2 =>
      exact ⟨q2, rfl, subst_query_ok_occs_nil q ps q2 hs⟩

/-- C1 witness: the sample query substitutes totally under the sample
parameter map. -/
theorem C1_totality_witness :
    ∃ q2, substitute_parameters sampleQuery sampleParams = .ok q2 ∧
      queryOccs q2 = [] :=
  C1_totality sampleQuery sampleParams (by decide)

/-- C2: a parameter reference whose name has no entry in the map makes the
whole pass fail; at the reference itself (in either position kind) the error
raised is exactly the missing-parameter error naming that name. -/
theorem C2_missing_parameter (q : CypherQuery) (ps : Params) (o : Occ)
    (hmem : o ∈ queryOccs q) (hmiss : lookupParam ps o.occName = none) :
    (∃ e, substitute_parameters q ps = .error e) ∧
    substitute_in_property_value ps (.Parameter o.occName) =
      .error (.planError (missingParamMsg o.occName)) ∧
    substitute_in_value_expression ps (.Parameter o.occName) =
      .error (.planError (missingParamMsg o.occName)) := by
  refine ⟨?_, ?_, ?_⟩
  · have hres := resolveOcc_missing ps o hmiss
    obtain ⟨e2, he2⟩ := runOccs_error_of_mem ps (queryOccs q) o _ hmem hres
    have h := subst_query_unit q ps
    rw [he2] at h
    cases hs : substitute_parameters q ps with
    | error e3 => exact ⟨e3, rfl⟩
    | ok q2 =>
        rw [hs] at h
        simp [toUnit] at h
  · simp [substitute_in_property_value, hmiss]
  · simp [substitute_in_value_expression, hmiss]

/-- C2 witness: the query referencing `$y` under the empty parameter map. -/
theorem C2_missing_parameter_witness :
    (∃ e, substitute_parameters missingParamQuery [] = .error e) ∧
    substitute_in_property_value [] (.Parameter (Occ.expr "y").occName) =
      .error (.planError (missingParamMsg (Occ.expr "y").occName)) ∧
    substitute_in_value_expression [] (.Parameter (Occ.expr "y").occName) =
      .error (.planError (missingParamMsg (Occ.expr "y").occName)) :=
  C2_missing_parameter missingParamQuery [] (.expr "y") (by decide) (by rfl)

/-- C3: a value-expression parameter reference bound to an array becomes a
float-vector literal of the elements' numeric interpretations (cast to
single precision, order and length preserved) when every element is
numeric, and fails with the invalid-list error naming the parameter when
some element is not numeric. -/
theorem C3_expression_array_coercion (ps : Params) (name : String)
    (arr : List JsonValue) (hlook : lookupParam ps name = some (.arr arr)) :
    (allNumeric arr = true →
      substitute_in_value_expression ps (.Parameter name) =
        .ok (.VectorLiteral (floatsOf arr)) ∧ (floatsOf arr).length = arr.length) ∧
    (allNumeric arr = false →
      substitute_in_value_expression ps (.Parameter name) =
        .error (.planError (nonNumericListMsg name))) := by
  constructor
  · intro h
    refine ⟨?_, floatsOf_length arr h⟩
    simp [substitute_in_value_expression, hlook, collect_floats_spec name arr h]
  · intro h
    simp [substitute_in_value_expression, hlook, collect_floats_fail name arr h]

/-- C3 witness: `[1, 2.5, 3]` becomes the vector `[1, 5/2, 3]`, and
`[1, "a"]` is rejected with the invalid-list error. -/
theorem C3_expression_array_coercion_witness :
    (substitute_in_value_expression sampleParams (.Parameter "vec") =
      .ok (.VectorLiteral [1, 5/2, 3]) ∧
      (floatsOf [.num ⟨some 1, some 1⟩, .num ⟨none, some (5/2)⟩, .num ⟨some 3, some 3⟩]).length = 3) ∧
    substitute_in_value_expression [("bad", .arr [.num ⟨some 1, some 1⟩, .str "a"])]
      (.Parameter "bad") = .error (.planError (nonNumericListMsg "bad")) := by
  constructor
  · exact (C3_expression_array_coercion sampleParams "vec" _ (by rfl)).1 (by decide)
  · exact (C3_expression_array_coercion [("bad", .arr [.num ⟨some 1, some 1⟩, .str "a"])]
      "bad" _ (by rfl)).2 (by decide)

/-- C4: the scalar coercion table of `json_to_property_value`: null, boolean,
integer-representable number, non-integer number, number with neither
interpretation, string, and the object rejection. -/
theorem C4_scalar_coercion :
    json_to_property_value .null = .ok .Null ∧
    (∀ b, json_to_property_value (.bool b) = .ok (.Boolean b)) ∧
    (∀ n i, n.as_i64 = some i → json_to_property_value (.num n) = .ok (.Integer i)) ∧
    (∀ n f, n.as_i64 = none → n.as_f64 = some f →
      json_to_property_value (.num n) = .ok (.Float f)) ∧
    (∀ n, n.as_i64 = none → n.as_f64 = none →
      json_to_property_value (.num n) = .ok .Null) ∧
    (∀ s, json_to_property_value (.str s) = .ok (.String s)) ∧
    (∀ fields, json_to_property_value (.obj fields) =
      .error (.planError complexTypeMsg)) := by
  refine ⟨rfl, fun b => rfl, ?_, ?_, ?_, fun s => rfl, fun fields => rfl⟩
  · intro n i h
    simp [json_to_property_value, h]
  · intro n f h1 h2
    simp [json_to_property_value, h1, h2]
  · intro n h1 h2
    simp [json_to_property_value, h1, h2]

/-- C4 witness: the table evaluated at `42`, `3.14`, and a number with
neither interpretation. -/
theorem C4_scalar_coercion_witness :
    json_to_property_value (.num ⟨some 42, some 42⟩) = .ok (.Integer 42) ∧
    json_to_property_value (.num ⟨none, some (157/50)⟩) = .ok (.Float (157/50)) ∧
    json_to_property_value (.num ⟨none, none⟩) = .ok .Null :=
  ⟨C4_scalar_coercion.2.2.1 ⟨some 42, some 42⟩ 42 rfl,
   C4_scalar_coercion.2.2.2.1 ⟨none, some (157/50)⟩ (157/50) rfl rfl,
   C4_scalar_coercion.2.2.2.2.1 ⟨none, none⟩ rfl rfl⟩

/-- C5: in a bare property-value position, a parameter bound to an array is
rejected with the unsupported-complex-parameter error: arrays are only
promoted to vector literals in value-expression positions. -/
theorem C5_property_position_array_rejected (ps : Params) (name : String)
    (arr : List JsonValue) (h : lookupParam ps name = some (.arr arr)) :
    substitute_in_property_value ps (.Parameter name) =
      .error (.planError complexTypeMsg) := by
  simp [substitute_in_property_value, h, json_to_property_value]

/-- C5 witness: the all-numeric array bound to `vec` — accepted in
expression position — is rejected in property position. -/
theorem C5_property_position_array_rejected_witness :
    substitute_in_property_value sampleParams (.Parameter "vec") =
      .error (.planError complexTypeMsg) :=
  C5_property_position_array_rejected sampleParams "vec" _ (by rfl)

/-- C6: the pass is equivalent (in success/failure and in which error
surfaces) to resolving the query's parameter-reference occurrences in
exactly the specified order, as laid down by `queryOccs`: (1) each
pre-projection reading clause in sequence, (2) the pre-projection filter,
(3) the intermediate projection with its nested ordering, (4) each
post-projection reading clause, (5) the post-projection filter, (6) the
final projection, (7) the final ordering — and inside a path pattern the
start node first, then per segment the relationship then the end node. -/
theorem C6_traversal_order (q : CypherQuery) (ps : Params) :
    toUnit (substitute_parameters q ps) = runOccs ps (queryOccs q) :=
  subst_query_unit q ps

/-- C7: substitution is fail-fast — it returns an error exactly when some
occurrence fails to resolve, and the error returned is precisely that of the
first failing occurrence in traversal order. -/
theorem C7_fail_fast (q : CypherQuery) (ps : Params) (e : GraphError) :
    substitute_parameters q ps = .error e ↔
      firstFailure ps (queryOccs q) = some e := by
  rw [← runOccs_error_iff_firstFailure]
  have h := subst_query_unit q ps
  constructor
  · intro hs
    rw [hs] at h
    simpa [toUnit] using h.symm
  · intro hr
    rw [hr] at h
    cases hs : substitute_parameters q ps with
    | error e2 =>
        rw [hs] at h
        simp only [toUnit] at h
        cases h
        rfl
    | ok q2 =>
        rw [hs] at h
        simp [toUnit] at h

theorem substitute_args_eq_mapE (ps : Params) (l : List ValueExpression) :
    substitute_args ps l = mapE (substitute_in_value_expression ps) l := by
  induction l with
  | nil => rfl
  | cons a rest ih =>
      simp only [substitute_args, mapE, ih]
      cases substitute_in_value_expression ps a with
      | error e => rfl
      | ok a2 => cases mapE (substitute_in_value_expression ps) rest <;> rfl

/-- C8: substitution preserves the frame — argument lists (shared by
function calls and membership-test candidate lists) and path-segment
sequences keep their length with elementwise substitution in place, the
clause skeleton is unchanged (no clause created, dropped or reordered), and
a query with no parameter reference is returned unchanged whatever the
parameter map contains. -/
theorem C8_frame_preservation (ps : Params) :
    (∀ args args2, substitute_args ps args = .ok args2 →
      args2.length = args.length ∧
      ∀ i (hi : i < args.length) (hi2 : i < args2.length),
        substitute_in_value_expression ps (args.get ⟨i, hi⟩) =
          .ok (args2.get ⟨i, hi2⟩)) ∧
    (∀ segs segs2, mapE (substitute_in_segment ps) segs = .ok segs2 →
      segs2.length = segs.length ∧
      ∀ i (hi : i < segs.length) (hi2 : i < segs2.length),
        substitute_in_segment ps (segs.get ⟨i, hi⟩) = .ok (segs2.get ⟨i, hi2⟩)) ∧
    (∀ q q2, substitute_parameters q ps = .ok q2 →
      q2.reading_clauses.length = q.reading_clauses.length ∧
      q2.where_clause.isSome = q.where_clause.isSome ∧
      q2.with_clause.isSome = q.with_clause.isSome ∧
      q2.post_with_reading_clauses.length = q.post_with_reading_clauses.length ∧
      q2.post_with_where_clause.isSome = q.post_with_where_clause.isSome ∧
      q2.return_clause.items.length = q.return_clause.items.length ∧
      q2.order_by.isSome = q.order_by.isSome) ∧
    (∀ q, queryOccs q = [] → substitute_parameters q ps = .ok q) := by
  refine ⟨?_, ?_, ?_, fun q hq => subst_query_id q ps hq⟩
  · intro args args2 h
    rw [substitute_args_eq_mapE] at h
    exact mapE_ok_spec _ args args2 h
  · intro segs segs2 h
    exact mapE_ok_spec _ segs segs2 h
  · intro q q2 h
    unfold substitute_parameters at h
    cases h1 : mapE (substitute_in_reading_clause ps) q.reading_clauses with
    | error e => rw [h1] at h; cases h
    | ok rcs =>
    rw [h1] at h
    cases h2 : substOption (substitute_in_where_clause ps) q.where_clause with
    | error e => rw [h2] at h; cases h
    | ok wc =>
    rw [h2] at h
    cases h3 : substOption (substitute_in_with_clause ps) q.with_clause with
    | error e => rw [h3] at h; cases h
    | ok withc =>
    rw [h3] at h
    cases h4 : mapE (substitute_in_reading_clause ps) q.post_with_reading_clauses with
    | error e => rw [h4] at h; cases h
    | ok prcs =>
    rw [h4] at h
    cases h5 : substOption (substitute_in_where_clause ps) q.post_with_where_clause with
    | error e => rw [h5] at h; cases h
    | ok pwc =>
    rw [h5] at h
    cases h6 : substitute_in_return_clause ps q.return_clause with
    | error e => rw [h6] at h; cases h
    | ok retc =>
    rw [h6] at h
    cases h7 : substOption (substitute_in_order_by_clause ps) q.order_by with
    | error e => rw [h7] at h; cases h
    | ok obc =>
    rw [h7] at h
    cases h
    have hretlen : retc.items.length = q.return_clause.items.length := by
      simp only [substitute_in_return_clause] at h6
      cases hri : mapE (substitute_in_projection_item ps) q.return_clause.items with
      | error e => rw [hri] at h6; cases h6
      | ok items2 =>
          rw [hri] at h6
          cases h6
          exact (mapE_ok_spec _ q.return_clause.items items2 hri).1
    exact ⟨(mapE_ok_spec _ q.reading_clauses rcs h1).1,
      substOption_ok_isSome _ q.where_clause wc h2,
      substOption_ok_isSome _ q.with_clause withc h3,
      (mapE_ok_spec _ q.post_with_reading_clauses prcs h4).1,
      substOption_ok_isSome _ q.post_with_where_clause pwc h5,
      hretlen,
      substOption_ok_isSome _ q.order_by obc h7⟩

/-- C8 witness: argument-list length preserved under substitution, and the
parameter-free query is returned unchanged under the sample map. -/
theorem C8_frame_preservation_witness :
    ([ValueExpression.Literal (.Integer 30), .Variable "row"].length =
      [ValueExpression.Parameter "age", .Variable "row"].length) ∧
    substitute_parameters paramFreeQuery sampleParams = .ok paramFreeQuery :=
  ⟨((C8_frame_preservation sampleParams).1 _ _ (by rfl)).1,
   (C8_frame_preservation sampleParams).2.2.2 paramFreeQuery (by decide)⟩

/-- C9: the pass also descends into UNWIND reading clauses: the clause's
expression is substituted by exactly the value-expression rules, including
array-to-vector coercion, as shown both at the clause level and through a
full `substitute_parameters` run on an UNWIND-only query. -/
theorem C9_unwind_descent (ps : Params) :
    (∀ uc : UnwindClause,
      substitute_in_reading_clause ps (.Unwind uc) =
        match substitute_in_value_expression ps uc.expression with
        | .error e => .error e
        | .ok expr2 => .ok (.Unwind { uc with expression := expr2 })) ∧
    (∀ name v arr, lookupParam ps name = some (.arr arr) → allNumeric arr = true →
      substitute_parameters
        { reading_clauses := [.Unwind { expression := .Parameter name, variable_name := v }],
          where_clause := none, with_clause := none, post_with_reading_clauses := [],
          post_with_where_clause := none, return_clause := { items := [] },
          order_by := none } ps =
      .ok { reading_clauses := [.Unwind { expression := .VectorLiteral (floatsOf arr), variable_name := v }],
            where_clause := none, with_clause := none, post_with_reading_clauses := [],
            post_with_where_clause := none, return_clause := { items := [] },
            order_by := none }) := by
  constructor
  · intro uc
    cases he : substitute_in_value_expression ps uc.expression <;>
      simp [substitute_in_reading_clause, he]
  · intro name v arr hlook hnum
    have hexpr : substitute_in_value_expression ps (.Parameter name) =
        .ok (.VectorLiteral (floatsOf arr)) := by
      simp [substitute_in_value_expression, hlook, collect_floats_spec name arr hnum]
    simp [substitute_parameters, mapE, substitute_in_reading_clause, hexpr,
      substOption, substitute_in_return_clause]

/-- C9 witness: an UNWIND-only query over the sample map's numeric array. -/
theorem C9_unwind_descent_witness :
    substitute_parameters
      { reading_clauses := [.Unwind { expression := .Parameter "vec", variable_name := "row" }],
        where_clause := none, with_clause := none, post_with_reading_clauses := [],
        post_with_where_clause := none, return_clause := { items := [] },
        order_by := none } sampleParams =
    .ok { reading_clauses := [.Unwind { expression := .VectorLiteral (floatsOf [.num ⟨some 1, some 1⟩, .num ⟨none, some (5/2)⟩, .num ⟨some 3, some 3⟩]), variable_name := "row" }],
          where_clause := none, with_clause := none, post_with_reading_clauses := [],
          post_with_where_clause := none, return_clause := { items := [] },
          order_by := none } :=
  (C9_unwind_descent sampleParams).2 "vec" "row" _ (by rfl) (by decide)

/-- C10: a value-expression parameter bound to the empty array succeeds and
becomes the empty float-vector literal; it is not rejected. -/
theorem C10_empty_array_vector (ps : Params) (name : String)
    (h : lookupParam ps name = some (.arr [])) :
    substitute_in_value_expression ps (.Parameter name) =
      .ok (.VectorLiteral []) := by
  simp [substitute_in_value_expression, h, collect_floats]

/-- C10 witness: the binding `e ↦ []`. -/
theorem C10_empty_array_vector_witness :
    substitute_in_value_expression [("e", .arr [])] (.Parameter "e") =
      .ok (.VectorLiteral []) :=
  C10_empty_array_vector [("e", .arr [])] "e" (by rfl)
